import Mathlib

/-!
# Verification of the TTT lobby/session coordinator

This file gives a shallow embedding of the socket event handlers of the TTT
repository and proves properties of them.  The repository contains several
near-duplicate server variants; the ones the claims reference are embedded in
separate namespaces:

* `P5` — the variant in `src/unnamed/part_005` (in-memory lobby with per-user
  score records, bot games, replay consent).
* `P3` — the variant in `src/unnamed/part_003` (same shape as `P5` but with an
  inline bot-reply branch in `playerMove` and guarded exit/disconnect paths).
* `P4` — the first server in `src/unnamed/part_004` (joinLobby without a
  re-join check).
* `SJ` — the lowdb variant in `src/server.js` (persistent score records keyed
  by username, `acceptChallenge` / `makeMove` / `quitGame` / `disconnect`).

Modelling conventions, shared by all namespaces:

* JavaScript `Map`s and plain objects used as dictionaries are modelled as
  association lists in insertion order; `Map.get` is `lookupA`, `Map.set` of a
  fresh key is an append, mutation of a held value is `updateA`, `Map.delete`
  is `eraseA`.
* Each socket handler becomes a case of a `handle` function of type
  `ServerState → Event → Option (ServerState × List Emit)`.  The `Emit` list
  records the `io.emit` / `io.to(...).emit` calls the handler performs, in
  order.  A result of `none` models a thrown `TypeError` (for example reading
  a field of `undefined` after a failed `Map.get`): these variants install no
  handler-level `try`/`catch` for the affected paths, so the exception kills
  the node process and the in-memory state has no successor.
* `generateGameId` draws a random id; it is modelled by a fresh counter
  (`nextGameId`).  `Date.now()` in `server.js` is modelled by a counter that
  advances on each game creation.  `Math.random()` in the part_003 bot is
  modelled by an oracle value carried on the move event.
* Delivery of room-targeted emits (`io.to(gameId)`) is a transport concern and
  is not modelled; the `Emit` list records the emission exactly as the source
  performs it, with its target.
-/

/-! ## Association-list primitives mirroring JavaScript `Map` -/

section AssocList

variable {κ : Type} {α : Type} [DecidableEq κ]

/-- `Map.get k` on an association list in insertion order. -/
def lookupA (k : κ) : List (κ × α) → Option α
  | [] => none
  | (k', v) :: rest => if k' = k then some v else lookupA k rest

/-- Mutation of the value object held under a key (`m.get(k).field = v`):
applies `f` to every entry whose key is `k`, leaving the order unchanged. -/
def updateA (k : κ) (f : α → α) : List (κ × α) → List (κ × α)
  | [] => []
  | (k', v) :: rest =>
    (k', if k' = k then f v else v) :: updateA k f rest

/-- `Map.delete k` (keys are unique in every state that arises, so removing
every entry with the key coincides with removing the one entry). -/
def eraseA (k : κ) : List (κ × α) → List (κ × α)
  | [] => []
  | (k', v) :: rest =>
    if k' = k then eraseA k rest else (k', v) :: eraseA k rest

@[simp] theorem lookupA_nil (k : κ) : (lookupA k ([] : List (κ × α))) = none := rfl

theorem lookupA_cons (k : κ) (k' : κ) (v : α) (l : List (κ × α)) :
    lookupA k ((k', v) :: l) = if k' = k then some v else lookupA k l := rfl

theorem lookupA_some_mem {k : κ} {v : α} {l : List (κ × α)} :
    lookupA k l = some v → (k, v) ∈ l := by
  induction l with
  | nil => intro h; simp [lookupA] at h
  | cons p rest ih =>
    intro h
    rcases p with ⟨k', v'⟩
    by_cases hk : k' = k
    · subst hk
      simp [lookupA] at h
      subst h; exact List.mem_cons_self _ _
    · simp [lookupA, hk] at h
      exact List.mem_cons_of_mem _ (ih h)

theorem lookupA_updateA_self (k : κ) (f : α → α) (l : List (κ × α)) :
    lookupA k (updateA k f l) = (lookupA k l).map f := by
  induction l with
  | nil => rfl
  | cons p rest ih =>
    rcases p with ⟨k', v'⟩
    by_cases hk : k' = k
    · simp [lookupA, updateA, hk]
    · simp [lookupA, updateA, hk, ih]

theorem lookupA_updateA_ne (k k' : κ) (f : α → α) (l : List (κ × α)) (h : k' ≠ k) :
    lookupA k' (updateA k f l) = lookupA k' l := by
  induction l with
  | nil => rfl
  | cons p rest ih =>
    rcases p with ⟨k₀, v₀⟩
    by_cases hk' : k₀ = k'
    · have hk : ¬k₀ = k := by
        intro hh; exact h (hk'.symm.trans hh)
      simp [lookupA, updateA, hk, hk', h]
    · simp [lookupA, updateA, hk', ih]

theorem lookupA_eraseA_ne (k k' : κ) (l : List (κ × α)) (h : k' ≠ k) :
    lookupA k' (eraseA k l) = lookupA k' l := by
  induction l with
  | nil => rfl
  | cons p rest ih =>
    rcases p with ⟨k₀, v₀⟩
    by_cases hk : k₀ = k
    · have hk' : ¬k₀ = k' := by
        intro hh; exact h (hh.symm.trans hk)
      simp [lookupA, eraseA, hk, hk', ih, Ne.symm h]
    · simp only [eraseA, if_neg hk]
      by_cases hk' : k₀ = k'
      · simp [lookupA, hk']
      · simp [lookupA, hk', ih]

theorem lookupA_append (k : κ) (l m : List (κ × α)) :
    lookupA k (l ++ m) =
      match lookupA k l with
      | some v => some v
      | none => lookupA k m := by
  induction l with
  | nil => simp [lookupA]
  | cons p rest ih =>
    rcases p with ⟨k', v'⟩
    by_cases hk : k' = k <;> simp [lookupA, hk, ih]

theorem mem_updateA {k : κ} {f : α → α} {l : List (κ × α)} {p : κ × α}
    (h : p ∈ updateA k f l) :
    ∃ q ∈ l, p.1 = q.1 ∧ ((q.1 = k ∧ p.2 = f q.2) ∨ (q.1 ≠ k ∧ p = q)) := by
  induction l with
  | nil => simp [updateA] at h
  | cons q rest ih =>
    rcases q with ⟨k₀, v₀⟩
    rw [updateA] at h
    rcases List.mem_cons.mp h with h' | h'
    · refine ⟨(k₀, v₀), List.mem_cons_self _ _, ?_, ?_⟩
      · rw [h']
      · by_cases hk : k₀ = k
        · left; exact ⟨hk, by rw [h']; simp [hk]⟩
        · right; exact ⟨hk, by rw [h']; simp [hk]⟩
    · rcases ih h' with ⟨q, hq, hpq⟩
      exact ⟨q, List.mem_cons_of_mem _ hq, hpq⟩

theorem lookupA_of_mem_keysDistinct {l : List (κ × α)} {k : κ} {v : α}
    (hd : l.Pairwise (fun a b => a.1 ≠ b.1)) (hm : (k, v) ∈ l) :
    lookupA k l = some v := by
  induction l with
  | nil => simp at hm
  | cons q rest ih =>
    rcases q with ⟨k₀, v₀⟩
    rcases List.pairwise_cons.mp hd with ⟨hhead, htail⟩
    rcases List.mem_cons.mp hm with h' | h'
    · rw [Prod.mk.injEq] at h'
      rcases h' with ⟨h1, h2⟩
      simp [lookupA, h1, h2]
    · have hne : k₀ ≠ k := by
        have := hhead (k, v) h'
        simpa using this
      simp [lookupA, hne, ih htail h']

theorem mem_eraseA {k : κ} {l : List (κ × α)} {p : κ × α}
    (h : p ∈ eraseA k l) : p ∈ l ∧ p.1 ≠ k := by
  induction l with
  | nil => simp [eraseA] at h
  | cons q rest ih =>
    rcases q with ⟨k₀, v₀⟩
    rw [eraseA] at h
    by_cases hk : k₀ = k
    · simp only [hk, if_pos rfl] at h
      rcases ih h with ⟨hmem, hne⟩
      exact ⟨List.mem_cons_of_mem _ hmem, hne⟩
    · simp only [hk, if_neg hk] at h
      rcases List.mem_cons.mp h with h' | h'
      · subst h'; exact ⟨List.mem_cons_self _ _, hk⟩
      · rcases ih h' with ⟨hmem, hne⟩
        exact ⟨List.mem_cons_of_mem _ hmem, hne⟩

theorem keys_pairwise_updateA {k : κ} {f : α → α} {l : List (κ × α)}
    (h : l.Pairwise (fun a b => a.1 ≠ b.1)) :
    (updateA k f l).Pairwise (fun a b => a.1 ≠ b.1) := by
  induction l with
  | nil => exact List.Pairwise.nil
  | cons q rest ih =>
    rcases q with ⟨k₀, v₀⟩
    rcases List.pairwise_cons.mp h with ⟨hhead, htail⟩
    rw [updateA]
    refine List.pairwise_cons.mpr ⟨?_, ih htail⟩
    intro b hb
    rcases mem_updateA hb with ⟨q, hq, hbq, _⟩
    have hne := hhead q hq
    simpa [hbq] using hne

/-- Assignment `obj[k] = v` on a plain object used as a dictionary: replaces
in place when the key exists, appends otherwise. -/
def setA (k : κ) (v : α) (l : List (κ × α)) : List (κ × α) :=
  if (lookupA k l).isSome then updateA k (fun _ => v) l else l ++ [(k, v)]

theorem keys_pairwise_eraseA {k : κ} {l : List (κ × α)}
    (h : l.Pairwise (fun a b => a.1 ≠ b.1)) :
    (eraseA k l).Pairwise (fun a b => a.1 ≠ b.1) := by
  induction l with
  | nil => exact List.Pairwise.nil
  | cons q rest ih =>
    rcases q with ⟨k₀, v₀⟩
    rcases List.pairwise_cons.mp h with ⟨hhead, htail⟩
    rw [eraseA]
    by_cases hk : k₀ = k
    · simpa [hk] using ih htail
    · rw [if_neg hk]
      refine List.pairwise_cons.mpr ⟨?_, ih htail⟩
      intro b hb
      exact hhead b (mem_eraseA hb).1

theorem lookupA_eraseA_self (k : κ) (l : List (κ × α)) :
    lookupA k (eraseA k l) = none := by
  induction l with
  | nil => rfl
  | cons p rest ih =>
    rcases p with ⟨k₀, v₀⟩
    by_cases hk : k₀ = k
    · simp [eraseA, hk, ih]
    · simp [eraseA, lookupA, hk, ih]

end AssocList

/-! ## The board side marker -/

/-- Player marks.  The variants store the strings `"X"` / `"O"`; both creation
sites only ever produce these two values, so cells are embedded with this
two-element type (the lowdb variant, which stores arbitrary client-supplied
strings, uses `Option String` cells instead — see `SJ`). -/
inductive Side
  | X
  | O
deriving DecidableEq, Repr

/-- `game.currentPlayer === "X" ? "O" : "X"` (written in the source as a
conditional swap). -/
def Side.flip : Side → Side
  | .X => .O
  | .O => .X

theorem Side.flip_ne (s : Side) : s.flip ≠ s := by cases s <;> simp [Side.flip]

/-- The eight fixed winning lines, in the order the source lists them:
three rows, three columns, two diagonals. -/
def winningCombos : List (Nat × Nat × Nat) :=
  [(0, 1, 2), (3, 4, 5), (6, 7, 8),
   (0, 3, 6), (1, 4, 7), (2, 5, 8),
   (0, 4, 8), (2, 4, 6)]

/-- `Array(9).fill(null)`. -/
def emptyBoard : List (Option Side) := List.replicate 9 none

/-- The `for (const [a, b, c] of winningCombos)` loop of `checkWinner`:
returns the owner of the first complete line, if any.  A falsy (`null`) cell
at position `a`, or an equality failure, advances to the next combo. -/
def scanCombos (board : List (Option Side)) : List (Nat × Nat × Nat) → Option Side
  | [] => none
  | (a, b, c) :: rest =>
    match board.getD a none with
    | some s =>
      if board.getD b none = some s ∧ board.getD c none = some s then some s
      else scanCombos board rest
    | none => scanCombos board rest

/-- Terminal results a stored game can carry (`game.winner` being `"X"`,
`"O"` or `"draw"`). -/
inductive GameResult
  | winSide (s : Side)
  | draw
deriving DecidableEq, Repr

/-- `checkWinner` as written identically in part_003, part_004 and part_005:
first complete line wins; otherwise `"draw"` if every cell is claimed, else
`null`. -/
def checkWinner (board : List (Option Side)) : Option GameResult :=
  match scanCombos board winningCombos with
  | some s => some (.winSide s)
  | none => if board.all (fun c => c.isSome) then some .draw else none

/-- A complete line for side `s`: some fixed combo has all three cells
claimed by `s`. -/
def lineComplete (board : List (Option Side)) (s : Side) : Prop :=
  ∃ t ∈ winningCombos,
    board.getD t.1 none = some s ∧ board.getD t.2.1 none = some s ∧
      board.getD t.2.2 none = some s

instance (board : List (Option Side)) (s : Side) :
    Decidable (lineComplete board s) := by
  unfold lineComplete; infer_instance

/-! ## `P5` — the server in `src/unnamed/part_005`

State: `lobbyUsers` (`Map` socketId → `{ username, inGame, score }`) and
`ongoingGames` (`Map` gameId → game object).  `generateGameId` is modelled by
the fresh counter `nextGameId`.  Note that `playerMove` in this variant has no
bot branch and that `exitToLobby` and `requestReplay` never check that the
sender is a player of the named game — both facts are verified below, not
smoothed over. -/

namespace P5

/-- `score: { wins: 0, losses: 0, draws: 0 }`. -/
structure Score where
  wins : Nat
  losses : Nat
  draws : Nat
deriving DecidableEq, Repr

/-- A `lobbyUsers` value: `{ username, inGame, score }`. -/
structure User where
  username : String
  inGame : Bool
  score : Score
deriving DecidableEq, Repr

/-- A `game.players` element: `{ socketId, symbol, username }`.  The second
slot of a bot game holds the sentinel socketId `"BOT"`. -/
structure PlayerSlot where
  socketId : String
  symbol : Side
  username : String
deriving DecidableEq, Repr

/-- The values `game.winner` ranges over (`null`, `"X"`, `"O"`, `"draw"`),
plus `"abandoned"`, which the handlers only ever place on the outgoing copy
`{ ...game, winner: "abandoned" }`, never on a stored game. -/
inductive WinState
  | ongoing
  | winSide (s : Side)
  | draw
  | abandoned
deriving DecidableEq, Repr

/-- Injection of a `checkWinner` result into `game.winner`. -/
def winOf : GameResult → WinState
  | .winSide s => .winSide s
  | .draw => .draw

/-- A `gameState` object (its `gameId` field is the key under which it is
stored, kept outside the structure). -/
structure Game where
  board : List (Option Side)
  currentPlayer : Side
  players : List PlayerSlot
  winner : WinState
  replayRequests : List String
  isBotGame : Bool
deriving DecidableEq, Repr

/-- The whole in-memory server state. -/
structure ServerState where
  lobbyUsers : List (String × User)
  ongoingGames : List (Nat × Game)
  nextGameId : Nat
deriving DecidableEq, Repr

/-- State at process start: both maps empty. -/
def initialState : ServerState := ⟨[], [], 0⟩

/-- The inbound socket events the server handles, each carrying the sender's
socket id first. -/
inductive Event
  | joinLobby (sid : String) (username : String)
  | challengeUser (sid : String) (opponentId : String)
  | challengeResponse (sid : String) (fromId : String) (accepted : Bool)
  | playWithBot (sid : String)
  | playerMove (sid : String) (gameId : Nat) (cellIndex : Nat)
  | requestReplay (sid : String) (gameId : Nat)
  | exitToLobby (sid : String) (gameId : Nat)
  | disconnect (sid : String)
deriving DecidableEq, Repr

/-- The outbound emissions a handler performs, in source order.
`lobbyData` is the `io.emit` broadcast of `updateLobby()` (the mapped array
carries exactly the association-list data).  `updateGameRoom` is
`io.to(gameId).emit("updateGame", …)` — a room-targeted emission;
`updateGameTo` is `io.to(socketId).emit("updateGame", …)`. -/
inductive Emit
  | lobbyData (users : List (String × User))
  | challengeRequest (target : String) (fromId : String) (fromUsername : String)
  | startGame (target : String) (gameId : Nat) (g : Game)
  | challengeDeclined (target : String) (reason : String)
  | updateGameRoom (gameId : Nat) (g : Game)
  | updateGameTo (target : String) (g : Game)
  | returnedToLobby (target : String)
deriving DecidableEq, Repr

/-- `board[cellIndex] !== null` as evaluated by JavaScript: an out-of-range
index reads `undefined`, which is `!== null`, so it also counts as blocked. -/
def cellBlocked (board : List (Option Side)) (i : Nat) : Bool :=
  decide (board.length ≤ i) || (board.getD i none).isSome

/-- One score increment for one lobby user, crashing (like
`lobbyUsers.get(id).score.draws++` on a missing id) when absent. -/
def bumpScore (sid : String) (f : Score → Score) (l : List (String × User)) :
    Option (List (String × User)) :=
  match lookupA sid l with
  | none => none
  | some _ => some (updateA sid (fun u => { u with score := f u.score }) l)

/-- The `game.players.forEach` loop of the draw branch: every non-`"BOT"`
player's draw counter is incremented. -/
def bumpDraws : List PlayerSlot → List (String × User) → Option (List (String × User))
  | [], l => some l
  | p :: rest, l =>
    if p.socketId = "BOT" then bumpDraws rest l
    else
      match bumpScore p.socketId (fun sc => { sc with draws := sc.draws + 1 }) l with
      | none => none
      | some l' => bumpDraws rest l'

/-- The win branch of `playerMove`: `winnerPlayer` / `loserPlayer` are the
first players whose symbol matches / differs; a missing one crashes at the
`.socketId` dereference, and `"BOT"` players are skipped. -/
def bumpWinLoss (g : Game) (w : Side) (l : List (String × User)) :
    Option (List (String × User)) :=
  match g.players.find? (fun p => p.symbol = w),
      g.players.find? (fun p => p.symbol ≠ w) with
  | some wp, some lp =>
    let step1 :=
      if wp.socketId = "BOT" then some l
      else bumpScore wp.socketId (fun sc => { sc with wins := sc.wins + 1 }) l
    match step1 with
    | none => none
    | some l1 =>
      if lp.socketId = "BOT" then some l1
      else bumpScore lp.socketId (fun sc => { sc with losses := sc.losses + 1 }) l1
  | _, _ => none

/-- The event dispatch: one synchronous handler per socket event, straight
from the source.  `none` models a thrown `TypeError` (process death). -/
def handle (s : ServerState) : Event → Option (ServerState × List Emit)
  | .joinLobby sid username =>
    -- `if (lobbyUsers.has(socket.id)) return;` then `lobbyUsers.set(...)`.
    match lookupA sid s.lobbyUsers with
    | some _ => some (s, [])
    | none =>
      let lobby1 := s.lobbyUsers ++ [(sid, ⟨username, false, ⟨0, 0, 0⟩⟩)]
      some ({ s with lobbyUsers := lobby1 }, [.lobbyData lobby1])
  | .challengeUser sid opponentId =>
    match lookupA sid s.lobbyUsers, lookupA opponentId s.lobbyUsers with
    | some challenger, some opponent =>
      if challenger.inGame || opponent.inGame then some (s, [])
      else some (s, [.challengeRequest opponentId sid challenger.username])
    | _, _ => some (s, [])
  | .challengeResponse sid fromId accepted =>
    match lookupA fromId s.lobbyUsers, lookupA sid s.lobbyUsers with
    | some challenger, some responder =>
      if challenger.inGame || responder.inGame then some (s, [])
      else if accepted then
        let gid := s.nextGameId
        let g : Game :=
          { board := emptyBoard, currentPlayer := .X,
            players := [⟨fromId, .X, challenger.username⟩, ⟨sid, .O, responder.username⟩],
            winner := .ongoing, replayRequests := [], isBotGame := false }
        let lobby1 :=
          updateA sid (fun u => { u with inGame := true })
            (updateA fromId (fun u => { u with inGame := true }) s.lobbyUsers)
        some ({ s with lobbyUsers := lobby1,
                       ongoingGames := s.ongoingGames ++ [(gid, g)],
                       nextGameId := gid + 1 },
              [.startGame fromId gid g, .startGame sid gid g, .lobbyData lobby1])
      else
        some (s, [.challengeDeclined fromId (responder.username ++ " declined your challenge.")])
    | _, _ => some (s, [])
  | .playWithBot sid =>
    match lookupA sid s.lobbyUsers with
    | none => some (s, [])
    | some user =>
      if user.inGame then some (s, [])
      else
        let gid := s.nextGameId
        let g : Game :=
          { board := emptyBoard, currentPlayer := .X,
            players := [⟨sid, .X, user.username⟩, ⟨"BOT", .O, "Bot"⟩],
            winner := .ongoing, replayRequests := [], isBotGame := true }
        let lobby1 := updateA sid (fun u => { u with inGame := true }) s.lobbyUsers
        some ({ s with lobbyUsers := lobby1,
                       ongoingGames := s.ongoingGames ++ [(gid, g)],
                       nextGameId := gid + 1 },
              [.startGame sid gid g, .lobbyData lobby1])
  | .playerMove sid gameId cellIndex =>
    match lookupA gameId s.ongoingGames with
    | none => some (s, [])
    | some game =>
      -- `if (!game || game.board[cellIndex] !== null || game.winner) return;`
      if cellBlocked game.board cellIndex || game.winner ≠ .ongoing then some (s, [])
      else
        match game.players.find? (fun p => p.socketId = sid) with
        | none => some (s, [])
        | some player =>
          if game.currentPlayer ≠ player.symbol then some (s, [])
          else
            let board1 := game.board.set cellIndex (some player.symbol)
            match checkWinner board1 with
            | some result =>
              let g1 := { game with board := board1, winner := winOf result }
              let lobby1? :=
                match result with
                | .draw => bumpDraws game.players s.lobbyUsers
                | .winSide w => bumpWinLoss game w s.lobbyUsers
              match lobby1? with
              | none => none
              | some lobby1 =>
                some ({ s with lobbyUsers := lobby1,
                               ongoingGames := updateA gameId (fun _ => g1) s.ongoingGames },
                      [.updateGameRoom gameId g1])
            | none =>
              let g1 := { game with board := board1,
                                    currentPlayer := game.currentPlayer.flip }
              some ({ s with ongoingGames := updateA gameId (fun _ => g1) s.ongoingGames },
                    [.updateGameRoom gameId g1])
  | .requestReplay sid gameId =>
    match lookupA gameId s.ongoingGames with
    | none => some (s, [])
    | some game =>
      if game.isBotGame then
        let g1 := { game with board := emptyBoard, currentPlayer := .X, winner := .ongoing }
        some ({ s with ongoingGames := updateA gameId (fun _ => g1) s.ongoingGames },
              [.updateGameRoom gameId g1])
      else
        let reqs :=
          if sid ∈ game.replayRequests then game.replayRequests
          else game.replayRequests ++ [sid]
        if reqs.length = 2 then
          let g1 := { game with board := emptyBoard, currentPlayer := .X,
                                winner := .ongoing, replayRequests := [] }
          some ({ s with ongoingGames := updateA gameId (fun _ => g1) s.ongoingGames },
                [.updateGameRoom gameId g1])
        else
          let g1 := { game with replayRequests := reqs }
          some ({ s with ongoingGames := updateA gameId (fun _ => g1) s.ongoingGames }, [])
  | .exitToLobby sid gameId =>
    match lookupA gameId s.ongoingGames with
    | none => some (s, [])
    | some game =>
      -- `const user = lobbyUsers.get(socket.id); if (user) user.inGame = false;`
      let lobby1 := updateA sid (fun u => { u with inGame := false }) s.lobbyUsers
      if game.isBotGame then
        some ({ s with lobbyUsers := lobby1, ongoingGames := eraseA gameId s.ongoingGames },
              [.lobbyData lobby1, .returnedToLobby sid])
      else
        match game.players.find? (fun p => p.socketId ≠ sid) with
        | none =>
          some ({ s with lobbyUsers := lobby1, ongoingGames := eraseA gameId s.ongoingGames },
                [.lobbyData lobby1, .returnedToLobby sid])
        | some opponent =>
          -- `lobbyUsers.get(opponent.socketId).inGame = false;` — unguarded.
          match lookupA opponent.socketId lobby1 with
          | none => none
          | some _ =>
            let lobby2 := updateA opponent.socketId (fun u => { u with inGame := false }) lobby1
            some ({ s with lobbyUsers := lobby2,
                           ongoingGames := eraseA gameId s.ongoingGames },
                  [.updateGameTo opponent.socketId { game with winner := .abandoned },
                   .lobbyData lobby2, .returnedToLobby sid])
  | .disconnect sid =>
    match lookupA sid s.lobbyUsers with
    | none => some (s, [])
    | some _ =>
      -- `user.inGame = false; lobbyUsers.delete(socket.id);`
      let lobby1 := eraseA sid (updateA sid (fun u => { u with inGame := false }) s.lobbyUsers)
      match s.ongoingGames.find? (fun p => p.2.players.any (fun q => q.socketId = sid)) with
      | none => some ({ s with lobbyUsers := lobby1 }, [.lobbyData lobby1])
      | some (gid, game) =>
        match game.players.find? (fun p => p.socketId ≠ sid) with
        | none =>
          some ({ s with lobbyUsers := lobby1, ongoingGames := eraseA gid s.ongoingGames },
                [.lobbyData lobby1])
        | some opponent =>
          -- `lobbyUsers.get(opponent.socketId).inGame = false;` — crashes when
          -- the opponent is the never-registered `"BOT"` sentinel.
          match lookupA opponent.socketId lobby1 with
          | none => none
          | some _ =>
            let lobby2 := updateA opponent.socketId (fun u => { u with inGame := false }) lobby1
            some ({ s with lobbyUsers := lobby2, ongoingGames := eraseA gid s.ongoingGames },
                  [.updateGameTo opponent.socketId { game with winner := .abandoned },
                   .lobbyData lobby2])

/-- Fold a list of events from the initial state, stopping at a crash. -/
def runEvents : List Event → Option ServerState
  | [] => some initialState
  | es =>
    es.foldl (fun acc e => acc.bind (fun s => (handle s e).map Prod.fst)) (some initialState)

end P5

namespace P5

/-! ### The single-session invariant of part_005

`exitToLobby` never checks that its sender plays in the game named by the
payload, and an exit naming a foreign game clears the sender's `inGame` flag
while leaving them bound (this is what the counterexample to the unrestricted
claim exploits).  The invariant therefore holds along traces whose exit
events name a game of their own sender. -/

/-- The restriction: an `exitToLobby` event names a game whose player slots
contain its sender (vacuously true when the game does not exist, and no
restriction on any other event). -/
def exitsOwnGame (s : ServerState) : Event → Prop
  | .exitToLobby sid gameId =>
    ∀ g, lookupA gameId s.ongoingGames = some g → ∃ p ∈ g.players, p.socketId = sid
  | _ => True

instance (s : ServerState) (e : Event) : Decidable (exitsOwnGame s e) := by
  cases e <;> simp only [exitsOwnGame] <;> infer_instance

/-- States reachable from process start by event sequences whose exits are
well-addressed (`exitsOwnGame`); a crashed handler has no successor. -/
inductive GoodReachable : ServerState → Prop
  | init : GoodReachable initialState
  | step {s s' : ServerState} {out : List Emit} (e : Event) :
      GoodReachable s → exitsOwnGame s e → handle s e = some (s', out) →
      GoodReachable s'

/-- `sid` occupies a player slot of `g`. -/
def InGameOf (sid : String) (g : Game) : Prop :=
  ∃ p ∈ g.players, p.socketId = sid

instance (sid : String) (g : Game) : Decidable (InGameOf sid g) := by
  unfold InGameOf; infer_instance

/-- The inductive invariant of the part_005 state. -/
structure Inv (s : ServerState) : Prop where
  idsBelow : ∀ p ∈ s.ongoingGames, p.1 < s.nextGameId
  keysDistinct : s.ongoingGames.Pairwise (fun a b => a.1 ≠ b.1)
  playerInLobby : ∀ p ∈ s.ongoingGames, ∀ q ∈ p.2.players, q.socketId ≠ "BOT" →
    ∃ u, lookupA q.socketId s.lobbyUsers = some u ∧ u.inGame = true
  noDouble : ∀ a ∈ s.ongoingGames, ∀ b ∈ s.ongoingGames, ∀ sid, sid ≠ "BOT" →
    InGameOf sid a.2 → InGameOf sid b.2 → a = b

theorem inv_init : Inv initialState := by
  refine ⟨?_, ?_, ?_, ?_⟩
  · intro p hp; simp [initialState] at hp
  · exact List.Pairwise.nil
  · intro p hp; simp [initialState] at hp
  · intro a ha; simp [initialState] at ha

/-- Two lobby lists with identical membership and `inGame` data at every key
(score updates only). -/
def SameInGame (l l' : List (String × User)) : Prop :=
  ∀ k, (lookupA k l').map User.inGame = (lookupA k l).map User.inGame

theorem sameInGame_refl (l : List (String × User)) : SameInGame l l :=
  fun _ => rfl

theorem sameInGame_trans {l₁ l₂ l₃ : List (String × User)}
    (h₁ : SameInGame l₁ l₂) (h₂ : SameInGame l₂ l₃) : SameInGame l₁ l₃ :=
  fun k => (h₂ k).trans (h₁ k)

theorem sameInGame_bumpScore {sid : String} {f : Score → Score}
    {l l' : List (String × User)} (h : bumpScore sid f l = some l') :
    SameInGame l l' := by
  unfold bumpScore at h
  cases hl : lookupA sid l with
  | none => rw [hl] at h; exact absurd h (by simp)
  | some u =>
    rw [hl] at h
    simp only [Option.some.injEq] at h
    subst h
    intro k
    by_cases hk : k = sid
    · subst hk
      rw [lookupA_updateA_self, hl]
      simp
    · rw [lookupA_updateA_ne _ _ _ _ hk]

theorem sameInGame_bumpDraws {ps : List PlayerSlot}
    {l l' : List (String × User)} (h : bumpDraws ps l = some l') :
    SameInGame l l' := by
  induction ps generalizing l with
  | nil =>
    simp only [bumpDraws, Option.some.injEq] at h
    subst h; exact sameInGame_refl l
  | cons p rest ih =>
    rw [bumpDraws] at h
    by_cases hb : p.socketId = "BOT"
    · rw [if_pos hb] at h
      exact ih h
    · rw [if_neg hb] at h
      cases hbs : bumpScore p.socketId (fun sc => { sc with draws := sc.draws + 1 }) l with
      | none => rw [hbs] at h; exact absurd h (by simp)
      | some l₁ =>
        rw [hbs] at h
        exact sameInGame_trans (sameInGame_bumpScore hbs) (ih h)

theorem sameInGame_bumpWinLoss {g : Game} {w : Side}
    {l l' : List (String × User)} (h : bumpWinLoss g w l = some l') :
    SameInGame l l' := by
  unfold bumpWinLoss at h
  cases hw : g.players.find? (fun p => p.symbol = w) with
  | none => rw [hw] at h; exact absurd h (by simp)
  | some wp =>
    cases hl : g.players.find? (fun p => p.symbol ≠ w) with
    | none => rw [hw, hl] at h; exact absurd h (by simp)
    | some lp =>
      rw [hw, hl] at h
      simp only at h
      by_cases hwb : wp.socketId = "BOT"
      · rw [if_pos hwb] at h
        simp only at h
        by_cases hlb : lp.socketId = "BOT"
        · rw [if_pos hlb] at h
          simp only [Option.some.injEq] at h
          subst h; exact sameInGame_refl l
        · rw [if_neg hlb] at h
          exact sameInGame_bumpScore h
      · rw [if_neg hwb] at h
        cases hbs : bumpScore wp.socketId (fun sc => { sc with wins := sc.wins + 1 }) l with
        | none => rw [hbs] at h; exact absurd h (by simp)
        | some l₁ =>
          rw [hbs] at h
          simp only at h
          by_cases hlb : lp.socketId = "BOT"
          · rw [if_pos hlb] at h
            simp only [Option.some.injEq] at h
            subst h; exact sameInGame_bumpScore hbs
          · rw [if_neg hlb] at h
            exact sameInGame_trans (sameInGame_bumpScore hbs) (sameInGame_bumpScore h)

theorem sameInGame_entry {l l' : List (String × User)} (h : SameInGame l l')
    {k : String} {u : User} (hk : lookupA k l = some u) (hg : u.inGame = true) :
    ∃ u', lookupA k l' = some u' ∧ u'.inGame = true := by
  have := h k
  rw [hk] at this
  cases hl' : lookupA k l' with
  | none => rw [hl'] at this; simp at this
  | some u' =>
    rw [hl'] at this
    simp only [Option.map_some'] at this
    refine ⟨u', rfl, ?_⟩
    have := Option.some.inj this
    rw [this, hg]

end P5

namespace P5

theorem not_inGame_of_false {s : ServerState} (hInv : Inv s) {sid : String} {u : User}
    (hne : sid ≠ "BOT") (hu : lookupA sid s.lobbyUsers = some u) (hf : u.inGame = false) :
    ∀ p ∈ s.ongoingGames, ¬ InGameOf sid p.2 := by
  intro p hp hin
  rcases hin with ⟨q, hq, hqs⟩
  have hqB : q.socketId ≠ "BOT" := by rw [hqs]; exact hne
  rcases hInv.playerInLobby p hp q hq hqB with ⟨u', hu', ht⟩
  rw [hqs, hu] at hu'
  have : u = u' := Option.some.inj hu'
  rw [← this] at ht
  rw [hf] at ht
  exact Bool.false_ne_true ht

/-- Invariant preservation for the two game-creation handlers
(`challengeResponse` accepted, `playWithBot`). -/
theorem inv_create {s : ServerState} (hInv : Inv s) {g : Game}
    {lobby1 : List (String × User)}
    (hhumans : ∀ q ∈ g.players, q.socketId ≠ "BOT" →
      ∃ u, lookupA q.socketId s.lobbyUsers = some u ∧ u.inGame = false)
    (hpost : ∀ q ∈ g.players, q.socketId ≠ "BOT" →
      ∃ u, lookupA q.socketId lobby1 = some u ∧ u.inGame = true)
    (hkeep : ∀ k u, lookupA k s.lobbyUsers = some u → u.inGame = true →
      ∃ u', lookupA k lobby1 = some u' ∧ u'.inGame = true) :
    Inv { s with lobbyUsers := lobby1,
                 ongoingGames := s.ongoingGames ++ [(s.nextGameId, g)],
                 nextGameId := s.nextGameId + 1 } := by
  have hfreshMem : ∀ p ∈ s.ongoingGames, p.1 ≠ s.nextGameId := by
    intro p hp
    exact Nat.ne_of_lt (hInv.idsBelow p hp)
  refine ⟨?_, ?_, ?_, ?_⟩
  · intro p hp
    rcases List.mem_append.mp hp with h' | h'
    · exact Nat.lt_succ_of_lt (hInv.idsBelow p h')
    · rcases List.mem_singleton.mp h' with rfl
      exact Nat.lt_succ_self _
  · refine List.pairwise_append.mpr ⟨hInv.keysDistinct, List.pairwise_singleton _ _, ?_⟩
    intro a ha b hb
    rcases List.mem_singleton.mp hb with rfl
    exact hfreshMem a ha
  · intro p hp q hq hqB
    rcases List.mem_append.mp hp with h' | h'
    · rcases hInv.playerInLobby p h' q hq hqB with ⟨u, hu, ht⟩
      exact hkeep _ u hu ht
    · rcases List.mem_singleton.mp h' with rfl
      exact hpost q hq hqB
  · intro a ha b hb sid hsB hina hinb
    rcases List.mem_append.mp ha with ha' | ha' <;>
      rcases List.mem_append.mp hb with hb' | hb'
    · exact hInv.noDouble a ha' b hb' sid hsB hina hinb
    · rcases List.mem_singleton.mp hb' with rfl
      exfalso
      rcases hinb with ⟨q, hq, hqs⟩
      have hqB : q.socketId ≠ "BOT" := by rw [hqs]; exact hsB
      rcases hhumans q hq hqB with ⟨u, hu, hf⟩
      rw [hqs] at hu
      exact not_inGame_of_false hInv hsB hu hf a ha' hina
    · rcases List.mem_singleton.mp ha' with rfl
      exfalso
      rcases hina with ⟨q, hq, hqs⟩
      have hqB : q.socketId ≠ "BOT" := by rw [hqs]; exact hsB
      rcases hhumans q hq hqB with ⟨u, hu, hf⟩
      rw [hqs] at hu
      exact not_inGame_of_false hInv hsB hu hf b hb' hinb
    · rw [List.mem_singleton.mp ha', List.mem_singleton.mp hb']

/-- Invariant preservation for the handlers that replace one stored game by a
version with the same player slots and only rescore the lobby
(`playerMove`, `requestReplay`). -/
theorem inv_gameUpdate {s : ServerState} (hInv : Inv s) {gid : Nat} {game g1 : Game}
    (hg : lookupA gid s.ongoingGames = some game)
    (hpl : g1.players = game.players)
    {lobby1 : List (String × User)} (hsame : SameInGame s.lobbyUsers lobby1) :
    Inv { s with lobbyUsers := lobby1,
                 ongoingGames := updateA gid (fun _ => g1) s.ongoingGames } := by
  have hval : ∀ q ∈ s.ongoingGames, q.1 = gid → q.2 = game := by
    intro q hq hqk
    have : lookupA gid s.ongoingGames = some q.2 := by
      have hmemq : (gid, q.2) ∈ s.ongoingGames := by
        rcases q with ⟨qk, qv⟩
        simp only at hqk
        rw [← hqk]
        exact hq
      exact lookupA_of_mem_keysDistinct hInv.keysDistinct hmemq
    rw [hg] at this
    exact (Option.some.inj this).symm
  have hmem : ∀ p ∈ updateA gid (fun _ => g1) s.ongoingGames,
      ∃ q ∈ s.ongoingGames, p.1 = q.1 ∧ p.2.players = q.2.players ∧
        ((q.1 = gid ∧ p = (q.1, g1)) ∨ (q.1 ≠ gid ∧ p = q)) := by
    intro p hp
    rcases mem_updateA hp with ⟨q, hq, hk, hcase⟩
    rcases hcase with ⟨hqk, hp2⟩ | ⟨hqk, hpq⟩
    · refine ⟨q, hq, hk, ?_, Or.inl ⟨hqk, ?_⟩⟩
      · rw [hp2, hpl, hval q hq hqk]
      · rcases p with ⟨p1, p2⟩
        simp only at hk hp2
        rw [Prod.mk.injEq]
        exact ⟨hk, hp2⟩
    · exact ⟨q, hq, hk, by rw [hpq], Or.inr ⟨hqk, hpq⟩⟩
  refine ⟨?_, ?_, ?_, ?_⟩
  · intro p hp
    rcases hmem p hp with ⟨q, hq, hk, _, _⟩
    rw [hk]
    exact hInv.idsBelow q hq
  · exact keys_pairwise_updateA hInv.keysDistinct
  · intro p hp q hq hqB
    rcases hmem p hp with ⟨q', hq', _, hppl, _⟩
    rw [hppl] at hq
    rcases hInv.playerInLobby q' hq' q hq hqB with ⟨u, hu, ht⟩
    exact sameInGame_entry hsame hu ht
  · intro a ha b hb sid hsB hina hinb
    rcases hmem a ha with ⟨qa, hqa, hka, hpa, hca⟩
    rcases hmem b hb with ⟨qb, hqb, hkb, hpb, hcb⟩
    have hina' : InGameOf sid qa.2 := by
      rcases hina with ⟨p, hp, hps⟩
      rw [hpa] at hp
      exact ⟨p, hp, hps⟩
    have hinb' : InGameOf sid qb.2 := by
      rcases hinb with ⟨p, hp, hps⟩
      rw [hpb] at hp
      exact ⟨p, hp, hps⟩
    have hqeq : qa = qb := hInv.noDouble qa hqa qb hqb sid hsB hina' hinb'
    rcases hca with ⟨hka', ha2⟩ | ⟨hka', ha2⟩ <;>
      rcases hcb with ⟨hkb', hb2⟩ | ⟨hkb', hb2⟩
    · rw [ha2, hb2, hqeq]
    · exact absurd (hqeq ▸ hka') hkb'
    · exact absurd (hqeq ▸ hkb') hka'
    · rw [ha2, hb2, hqeq]

/-- Rebuild `Inv` for a state that differs from `s` only in fields the
invariant does not mention (no-op steps). -/
theorem inv_of_eq {s s' : ServerState} (hInv : Inv s) (h : s = s') : Inv s' := h ▸ hInv

theorem inv_step_joinLobby {s s' : ServerState} {out : List Emit} {sid username : String}
    (hInv : Inv s) (h : handle s (.joinLobby sid username) = some (s', out)) :
    Inv s' := by
  rw [handle] at h
  cases hl : lookupA sid s.lobbyUsers with
  | some u =>
    rw [hl] at h
    simp only [Option.some.injEq, Prod.mk.injEq] at h
    exact inv_of_eq hInv h.1
  | none =>
    rw [hl] at h
    simp only [Option.some.injEq, Prod.mk.injEq] at h
    rcases h with ⟨hs, _⟩
    rw [← hs]
    refine ⟨hInv.idsBelow, hInv.keysDistinct, ?_, hInv.noDouble⟩
    intro p hp q hq hqB
    rcases hInv.playerInLobby p hp q hq hqB with ⟨u, hu, ht⟩
    refine ⟨u, ?_, ht⟩
    rw [lookupA_append]
    rw [hu]

theorem lookupA_setTrue (j k : String) (l : List (String × User)) :
    lookupA k (updateA j (fun u => { u with inGame := true }) l) =
      if k = j then (lookupA k l).map (fun u => { u with inGame := true })
      else lookupA k l := by
  by_cases hk : k = j
  · rw [if_pos hk, hk]
    exact lookupA_updateA_self j _ l
  · rw [if_neg hk]
    exact lookupA_updateA_ne j k _ l hk

theorem inv_step_challengeUser {s s' : ServerState} {out : List Emit}
    {sid opponentId : String}
    (hInv : Inv s) (h : handle s (.challengeUser sid opponentId) = some (s', out)) :
    Inv s' := by
  rw [handle] at h
  split at h
  · split at h <;>
      · simp only [Option.some.injEq, Prod.mk.injEq] at h
        exact inv_of_eq hInv h.1
  · simp only [Option.some.injEq, Prod.mk.injEq] at h
    exact inv_of_eq hInv h.1

theorem inv_step_challengeResponse {s s' : ServerState} {out : List Emit}
    {sid fromId : String} {accepted : Bool}
    (hInv : Inv s) (h : handle s (.challengeResponse sid fromId accepted) = some (s', out)) :
    Inv s' := by
  rw [handle] at h
  split at h
  case h_2 =>
    simp only [Option.some.injEq, Prod.mk.injEq] at h
    exact inv_of_eq hInv h.1
  case h_1 challenger responder hch hrp =>
    by_cases hg : (challenger.inGame || responder.inGame) = true
    · rw [if_pos hg] at h
      simp only [Option.some.injEq, Prod.mk.injEq] at h
      exact inv_of_eq hInv h.1
    · rw [if_neg hg] at h
      have hor : (challenger.inGame || responder.inGame) = false :=
        Bool.not_eq_true _ ▸ Bool.of_not_eq_true hg
      have hchF : challenger.inGame = false := (Bool.or_eq_false_iff.mp hor).1
      have hrpF : responder.inGame = false := (Bool.or_eq_false_iff.mp hor).2
      cases accepted with
      | false =>
        rw [if_neg (by simp)] at h
        simp only [Option.some.injEq, Prod.mk.injEq] at h
        exact inv_of_eq hInv h.1
      | true =>
        rw [if_pos rfl] at h
        simp only [Option.some.injEq, Prod.mk.injEq] at h
        rcases h with ⟨hs, _⟩
        rw [← hs]
        refine inv_create hInv ?_ ?_ ?_
        · intro q hq hqB
          simp only [List.mem_cons, List.mem_singleton, List.not_mem_nil, or_false] at hq
          rcases hq with rfl | rfl
          · exact ⟨challenger, hch, hchF⟩
          · exact ⟨responder, hrp, hrpF⟩
        · intro q hq hqB
          simp only [List.mem_cons, List.mem_singleton, List.not_mem_nil, or_false] at hq
          rcases hq with rfl | rfl
          · -- the challenger slot: socketId = fromId
            by_cases hfs : fromId = sid
            · subst hfs
              simp [lookupA_setTrue, hch]
            · simp [lookupA_setTrue, hfs, hch]
          · -- the responder slot: socketId = sid
            by_cases hsf : sid = fromId
            · subst hsf
              simp [lookupA_setTrue, hrp]
            · simp [lookupA_setTrue, hsf, hrp]
        · intro k u hu ht
          by_cases hks : k = sid
          · subst hks
            by_cases hkf : k = fromId
            · subst hkf
              simp [lookupA_setTrue, hu]
            · simp [lookupA_setTrue, hkf, hu]
          · by_cases hkf : k = fromId
            · subst hkf
              simp [lookupA_setTrue, hks, hu]
            · simp [lookupA_setTrue, hks, hkf, hu, ht]

theorem inv_step_playWithBot {s s' : ServerState} {out : List Emit} {sid : String}
    (hInv : Inv s) (h : handle s (.playWithBot sid) = some (s', out)) :
    Inv s' := by
  rw [handle] at h
  split at h
  case h_1 =>
    simp only [Option.some.injEq, Prod.mk.injEq] at h
    exact inv_of_eq hInv h.1
  case h_2 user hl =>
    by_cases hg : user.inGame = true
    · rw [if_pos hg] at h
      simp only [Option.some.injEq, Prod.mk.injEq] at h
      exact inv_of_eq hInv h.1
    · rw [if_neg hg] at h
      have hgF : user.inGame = false := Bool.not_eq_true _ ▸ Bool.of_not_eq_true hg
      simp only [Option.some.injEq, Prod.mk.injEq] at h
      rcases h with ⟨hs, _⟩
      rw [← hs]
      refine inv_create hInv ?_ ?_ ?_
      · intro q hq hqB
        simp only [List.mem_cons, List.mem_singleton, List.not_mem_nil, or_false] at hq
        rcases hq with rfl | rfl
        · exact ⟨user, hl, hgF⟩
        · exact absurd rfl hqB
      · intro q hq hqB
        simp only [List.mem_cons, List.mem_singleton, List.not_mem_nil, or_false] at hq
        rcases hq with rfl | rfl
        · simp [lookupA_setTrue, hl]
        · exact absurd rfl hqB
      · intro k u hu ht
        by_cases hks : k = sid
        · subst hks
          simp [lookupA_setTrue, hu]
        · simp [lookupA_setTrue, hks, hu, ht]

theorem inv_step_playerMove {s s' : ServerState} {out : List Emit}
    {sid : String} {gameId cellIndex : Nat}
    (hInv : Inv s) (h : handle s (.playerMove sid gameId cellIndex) = some (s', out)) :
    Inv s' := by
  rw [handle] at h
  split at h
  case h_1 =>
    simp only [Option.some.injEq, Prod.mk.injEq] at h
    exact inv_of_eq hInv h.1
  case h_2 game hgame =>
    split at h
    · simp only [Option.some.injEq, Prod.mk.injEq] at h
      exact inv_of_eq hInv h.1
    · split at h
      case h_1 =>
        simp only [Option.some.injEq, Prod.mk.injEq] at h
        exact inv_of_eq hInv h.1
      case h_2 player hplayer =>
        split at h
        · simp only [Option.some.injEq, Prod.mk.injEq] at h
          exact inv_of_eq hInv h.1
        · dsimp only at h
          split at h
          case h_1 result hcw =>
            split at h
            case h_1 hnone => exact absurd h (by simp)
            case h_2 lobby1 hlobby =>
              simp only [Option.some.injEq, Prod.mk.injEq] at h
              rcases h with ⟨hs, _⟩
              rw [← hs]
              refine inv_gameUpdate hInv hgame ?_ ?_
              · rfl
              · cases result with
                | draw => exact sameInGame_bumpDraws hlobby
                | winSide w => exact sameInGame_bumpWinLoss hlobby
          case h_2 hcw =>
            simp only [Option.some.injEq, Prod.mk.injEq] at h
            rcases h with ⟨hs, _⟩
            rw [← hs]
            refine inv_gameUpdate hInv hgame ?_ (sameInGame_refl _)
            rfl

theorem inv_step_requestReplay {s s' : ServerState} {out : List Emit}
    {sid : String} {gameId : Nat}
    (hInv : Inv s) (h : handle s (.requestReplay sid gameId) = some (s', out)) :
    Inv s' := by
  rw [handle] at h
  split at h
  case h_1 =>
    simp only [Option.some.injEq, Prod.mk.injEq] at h
    exact inv_of_eq hInv h.1
  case h_2 game hgame =>
    split at h
    · simp only [Option.some.injEq, Prod.mk.injEq] at h
      rcases h with ⟨hs, _⟩
      rw [← hs]
      refine inv_gameUpdate hInv hgame ?_ (sameInGame_refl _)
      rfl
    · dsimp only at h
      by_cases hmem : sid ∈ game.replayRequests
      · rw [if_pos hmem] at h
        split at h <;>
          · simp only [Option.some.injEq, Prod.mk.injEq] at h
            rcases h with ⟨hs, _⟩
            rw [← hs]
            refine inv_gameUpdate hInv hgame ?_ (sameInGame_refl _)
            rfl
      · rw [if_neg hmem] at h
        split at h <;>
          · simp only [Option.some.injEq, Prod.mk.injEq] at h
            rcases h with ⟨hs, _⟩
            rw [← hs]
            refine inv_gameUpdate hInv hgame ?_ (sameInGame_refl _)
            rfl

/-- Invariant preservation for the handlers that delete one game
(`exitToLobby`, `disconnect` with a found game). -/
theorem inv_erase {s : ServerState} (hInv : Inv s) {gid : Nat} {game : Game}
    (hg : lookupA gid s.ongoingGames = some game)
    {L : List (String × User)}
    (hkeep : ∀ k u, lookupA k s.lobbyUsers = some u → u.inGame = true →
      ¬ InGameOf k game → ∃ u', lookupA k L = some u' ∧ u'.inGame = true) :
    Inv { s with lobbyUsers := L, ongoingGames := eraseA gid s.ongoingGames } := by
  have hmemg : (gid, game) ∈ s.ongoingGames := lookupA_some_mem hg
  refine ⟨?_, ?_, ?_, ?_⟩
  · intro p hp
    exact hInv.idsBelow p (mem_eraseA hp).1
  · exact keys_pairwise_eraseA hInv.keysDistinct
  · intro p hp q hq hqB
    rcases mem_eraseA hp with ⟨hpmem, hpk⟩
    rcases hInv.playerInLobby p hpmem q hq hqB with ⟨u, hu, ht⟩
    refine hkeep q.socketId u hu ht ?_
    intro hin
    have hpg : p = (gid, game) :=
      hInv.noDouble p hpmem (gid, game) hmemg q.socketId hqB ⟨q, hq, rfl⟩ hin
    exact hpk (by rw [hpg])
  · intro a ha b hb sid hsB hina hinb
    exact hInv.noDouble a (mem_eraseA ha).1 b (mem_eraseA hb).1 sid hsB hina hinb

theorem inv_step_exitToLobby {s s' : ServerState} {out : List Emit}
    {sid : String} {gameId : Nat}
    (hInv : Inv s) (hexit : exitsOwnGame s (.exitToLobby sid gameId))
    (h : handle s (.exitToLobby sid gameId) = some (s', out)) :
    Inv s' := by
  rw [handle] at h
  split at h
  case h_1 =>
    simp only [Option.some.injEq, Prod.mk.injEq] at h
    exact inv_of_eq hInv h.1
  case h_2 game hgame =>
    have hsidIn : InGameOf sid game := by
      rcases hexit game hgame with ⟨p, hp, hps⟩
      exact ⟨p, hp, hps⟩
    have hkeep1 : ∀ k u, lookupA k s.lobbyUsers = some u → u.inGame = true →
        ¬ InGameOf k game →
        ∃ u', lookupA k (updateA sid (fun v => { v with inGame := false }) s.lobbyUsers) =
          some u' ∧ u'.inGame = true := by
      intro k u hu ht hnin
      have hks : k ≠ sid := fun hk => hnin (hk ▸ hsidIn)
      rw [lookupA_updateA_ne _ _ _ _ hks, hu]
      exact ⟨u, rfl, ht⟩
    split at h
    · simp only [Option.some.injEq, Prod.mk.injEq] at h
      rcases h with ⟨hs, _⟩
      rw [← hs]
      exact inv_erase hInv hgame hkeep1
    · split at h
      case h_1 =>
        simp only [Option.some.injEq, Prod.mk.injEq] at h
        rcases h with ⟨hs, _⟩
        rw [← hs]
        exact inv_erase hInv hgame hkeep1
      case h_2 opponent hopp =>
        have hoppmem : opponent ∈ game.players := List.mem_of_find?_eq_some hopp
        dsimp only at h
        split at h
        case h_1 => exact absurd h (by simp)
        case h_2 uopp hu =>
          simp only [Option.some.injEq, Prod.mk.injEq] at h
          rcases h with ⟨hs, _⟩
          rw [← hs]
          refine inv_erase hInv hgame ?_
          intro k u hu2 ht hnin
          have hks : k ≠ sid := fun hk => hnin (hk ▸ hsidIn)
          have hko : k ≠ opponent.socketId := by
            intro hk
            exact hnin (hk ▸ ⟨opponent, hoppmem, rfl⟩)
          rw [lookupA_updateA_ne _ _ _ _ hko, lookupA_updateA_ne _ _ _ _ hks, hu2]
          exact ⟨u, rfl, ht⟩

theorem inv_step_disconnect {s s' : ServerState} {out : List Emit} {sid : String}
    (hInv : Inv s) (h : handle s (.disconnect sid) = some (s', out)) :
    Inv s' := by
  rw [handle] at h
  split at h
  case h_1 =>
    simp only [Option.some.injEq, Prod.mk.injEq] at h
    exact inv_of_eq hInv h.1
  case h_2 user hl =>
    split at h
    case h_1 hfind =>
      -- no game contains the leaver
      simp only [Option.some.injEq, Prod.mk.injEq] at h
      rcases h with ⟨hs, _⟩
      rw [← hs]
      have hnog : ∀ p ∈ s.ongoingGames, ¬ InGameOf sid p.2 := by
        intro p hp hin
        rcases hin with ⟨q, hq, hqs⟩
        have hnp := List.find?_eq_none.mp hfind p hp
        simp only [List.any_eq_true, not_exists, not_and] at hnp
        exact hnp q hq (by simp [hqs])
      refine ⟨hInv.idsBelow, hInv.keysDistinct, ?_, hInv.noDouble⟩
      intro p hp q hq hqB
      rcases hInv.playerInLobby p hp q hq hqB with ⟨u, hu, ht⟩
      have hks : q.socketId ≠ sid := by
        intro hk
        exact hnog p hp ⟨q, hq, hk⟩
      rw [lookupA_eraseA_ne _ _ _ hks, lookupA_updateA_ne _ _ _ _ hks, hu]
      exact ⟨u, rfl, ht⟩
    case h_2 gidF gameF hfind =>
      have hmemF : (gidF, gameF) ∈ s.ongoingGames := List.mem_of_find?_eq_some hfind
      have hpredF := List.find?_some hfind
      have hsidInF : InGameOf sid gameF := by
        simp only [List.any_eq_true] at hpredF
        rcases hpredF with ⟨q, hq, hqs⟩
        exact ⟨q, hq, by simpa using hqs⟩
      have hgF : lookupA gidF s.ongoingGames = some gameF :=
        lookupA_of_mem_keysDistinct hInv.keysDistinct hmemF
      split at h
      case h_1 =>
        simp only [Option.some.injEq, Prod.mk.injEq] at h
        rcases h with ⟨hs, _⟩
        rw [← hs]
        refine inv_erase hInv hgF ?_
        intro k u hu ht hnin
        have hks : k ≠ sid := fun hk => hnin (hk ▸ hsidInF)
        rw [lookupA_eraseA_ne _ _ _ hks, lookupA_updateA_ne _ _ _ _ hks, hu]
        exact ⟨u, rfl, ht⟩
      case h_2 opponent hopp =>
        have hoppmem : opponent ∈ gameF.players := List.mem_of_find?_eq_some hopp
        dsimp only at h
        split at h
        case h_1 => exact absurd h (by simp)
        case h_2 uopp huopp =>
          simp only [Option.some.injEq, Prod.mk.injEq] at h
          rcases h with ⟨hs, _⟩
          rw [← hs]
          refine inv_erase hInv hgF ?_
          intro k u hu ht hnin
          have hks : k ≠ sid := fun hk => hnin (hk ▸ hsidInF)
          have hko : k ≠ opponent.socketId := by
            intro hk
            exact hnin (hk ▸ ⟨opponent, hoppmem, rfl⟩)
          rw [lookupA_updateA_ne _ _ _ _ hko, lookupA_eraseA_ne _ _ _ hks,
              lookupA_updateA_ne _ _ _ _ hks, hu]
          exact ⟨u, rfl, ht⟩

/-- The inductive step: every well-addressed handled event preserves `Inv`. -/
theorem inv_step {s s' : ServerState} {e : Event} {out : List Emit}
    (hInv : Inv s) (hexit : exitsOwnGame s e) (h : handle s e = some (s', out)) :
    Inv s' := by
  cases e with
  | joinLobby sid username => exact inv_step_joinLobby hInv h
  | challengeUser sid opponentId => exact inv_step_challengeUser hInv h
  | challengeResponse sid fromId accepted => exact inv_step_challengeResponse hInv h
  | playWithBot sid => exact inv_step_playWithBot hInv h
  | playerMove sid gameId cellIndex => exact inv_step_playerMove hInv h
  | requestReplay sid gameId => exact inv_step_requestReplay hInv h
  | exitToLobby sid gameId => exact inv_step_exitToLobby hInv hexit h
  | disconnect sid => exact inv_step_disconnect hInv h

/-- Every state reachable along well-addressed exits satisfies the invariant. -/
theorem goodReachable_inv {s : ServerState} (h : GoodReachable s) : Inv s := by
  induction h with
  | init => exact inv_init
  | step e _ hexit hstep ih => exact inv_step ih hexit hstep

end P5

/-! ## `SJ` — the lowdb server in `src/server.js`

State: the lowdb user records (`db.data.users`), `activeUsers`
(socketId → username) and `activeGames`.  `Date.now()` is modelled by the
`clock` counter, advanced on each game creation.  `initDB` re-reads the file
into the already-populated in-memory `db.data`, a no-op here.  Cells of a
board hold whatever string the client supplied in the `makeMove` payload, so
they are `Option String`.  The `setTimeout` that deletes a finished game
3000 ms later is recorded as a `scheduleTeardown` effect and its later firing
is outside the per-event semantics. -/

namespace SJ

/-- A `db.data.users` record. -/
structure DBUser where
  username : String
  games : Nat
  wins : Nat
  losses : Nat
deriving DecidableEq, Repr

/-- An `activeGames` value. -/
structure Game where
  player1 : String
  player2 : String
  board : List (Option String)
  currentTurn : String
  winner : Option String
deriving DecidableEq, Repr

structure ServerState where
  dbUsers : List DBUser
  activeUsers : List (String × String)
  activeGames : List (String × Game)
  clock : Nat
deriving DecidableEq, Repr

def initialState : ServerState := ⟨[], [], [], 0⟩

inductive Event
  | login (username : String)
  | joinLobby (sid : String) (username : String)
  | challengePlayer (sid : String) (target : String)
  | acceptChallenge (sid : String) (challengerSid : String)
  | declineChallenge (sid : String) (challengerSid : String)
  | makeMove (sid : String) (gameId : String) (index : Nat) (symbol : String)
  | quitGame (sid : String) (gameId : String)
  | disconnect (sid : String)
deriving DecidableEq, Repr

inductive Emit
  | lobbyUpdate (users : List (String × String × String))
  | challengeReceived (target : String) (challengerSocketId : String)
      (challengerUsername : Option String)
  | startGame (target : String) (gameId : String) (yourTurn : Bool) (symbol : String)
  | challengeDeclined (target : String)
  | boardUpdate (target : String) (board : List (Option String)) (yourTurn : Bool)
      (gameOver : Bool) (winner : Option String)
  | opponentQuit (target : String)
  | youQuit (target : String)
  | scheduleTeardown (gameId : String)
deriving DecidableEq, Repr

/-- `getLobbyUsers()`: every active user with status `in-game` exactly when
some active game has them in a player slot. -/
def getLobbyUsers (s : ServerState) : List (String × String × String) :=
  s.activeUsers.map (fun p =>
    (p.1, p.2,
      if s.activeGames.any (fun q => q.2.player1 = p.1 || q.2.player2 = p.1)
      then "in-game" else "available"))

/-- The combo loop of this variant's `checkWinner` over string cells;
JavaScript truthiness makes an empty-string cell falsy, so it can never head
a winning line. -/
def scanCombosS (board : List (Option String)) : List (Nat × Nat × Nat) → Option String
  | [] => none
  | (a, b, c) :: rest =>
    match board.getD a none with
    | some v =>
      if v ≠ "" ∧ board.getD b none = some v ∧ board.getD c none = some v then some v
      else scanCombosS board rest
    | none => scanCombosS board rest

def checkWinner (board : List (Option String)) : Option String :=
  scanCombosS board winningCombos

def isDraw (board : List (Option String)) : Bool :=
  board.all (fun c => c.isSome)

/-- `game.board[index] === null`: true only for an in-range empty cell (an
out-of-range read gives `undefined`, which is not `=== null`). -/
def cellIsNull (board : List (Option String)) (i : Nat) : Bool :=
  decide (i < board.length) && (board.getD i (some "")).isNone

/-- `getOrCreateUser`: the record and the possibly-extended table. -/
def getOrCreateUser (username : String) (db : List DBUser) : List DBUser :=
  match db.find? (fun u => u.username = username) with
  | some _ => db
  | none => db ++ [⟨username, 0, 0, 0⟩]

/-- Field mutation through the object reference `db.data.users.find(...)`. -/
def bumpDB (username : String) (f : DBUser → DBUser) (db : List DBUser) : List DBUser :=
  db.map (fun u => if u.username = username then f u else u)

/-- `db.data.users.find(u => u.username === name)` where `name` itself may be
`undefined` (a lookup of a never-joined socket id). -/
def dbUserFor (sid : String) (s : ServerState) : Option DBUser :=
  (lookupA sid s.activeUsers).bind (fun n => s.dbUsers.find? (fun u => u.username = n))

def handle (s : ServerState) : Event → Option (ServerState × List Emit)
  | .login username =>
    some ({ s with dbUsers := getOrCreateUser username s.dbUsers }, [])
  | .joinLobby sid username =>
    let users1 := setA sid username s.activeUsers
    let s1 := { s with activeUsers := users1 }
    some (s1, [.lobbyUpdate (getLobbyUsers s1)])
  | .challengePlayer sid target =>
    some (s, [.challengeReceived target sid (lookupA sid s.activeUsers)])
  | .acceptChallenge sid challengerSid =>
    -- no availability check of any kind: the game is created unconditionally
    let p1 := challengerSid
    let p2 := sid
    let gameId := p1 ++ p2 ++ toString s.clock
    let g : Game := ⟨p1, p2, List.replicate 9 none, p1, none⟩
    let s1 := { s with activeGames := setA gameId g s.activeGames, clock := s.clock + 1 }
    some (s1, [.startGame p1 gameId true "X", .startGame p2 gameId false "O",
               .lobbyUpdate (getLobbyUsers s1)])
  | .declineChallenge _ challengerSid =>
    some (s, [.challengeDeclined challengerSid])
  | .makeMove sid gameId index symbol =>
    match lookupA gameId s.activeGames with
    | none => some (s, [])
    | some game =>
      if game.currentTurn ≠ sid then some (s, [])
      else if cellIsNull game.board index then
        let board1 := game.board.set index (some symbol)
        let turn1 := if game.currentTurn = game.player1 then game.player2 else game.player1
        let w := checkWinner board1
        let g1 : Game := { game with board := board1, currentTurn := turn1, winner := w }
        let s1 := { s with activeGames := updateA gameId (fun _ => g1) s.activeGames }
        match w with
        | some ws =>
          let winnerId := if ws = "X" then game.player1 else game.player2
          let loserId := if ws = "X" then game.player2 else game.player1
          match dbUserFor winnerId s, dbUserFor loserId s with
          | some wU, some lU =>
            let db1 := bumpDB wU.username
              (fun u => { u with games := u.games + 1, wins := u.wins + 1 }) s.dbUsers
            let db2 := bumpDB lU.username
              (fun u => { u with games := u.games + 1, losses := u.losses + 1 }) db1
            some ({ s1 with dbUsers := db2 },
                  [.boardUpdate game.player1 board1 (turn1 = game.player1) true w,
                   .boardUpdate game.player2 board1 (turn1 = game.player2) true w,
                   .scheduleTeardown gameId])
          | _, _ => none
        | none =>
          if isDraw board1 then
            match dbUserFor game.player1 s, dbUserFor game.player2 s with
            | some u1, some u2 =>
              let db1 := bumpDB u1.username (fun u => { u with games := u.games + 1 }) s.dbUsers
              let db2 := bumpDB u2.username (fun u => { u with games := u.games + 1 }) db1
              some ({ s1 with dbUsers := db2 },
                    [.boardUpdate game.player1 board1 (turn1 = game.player1) true w,
                     .boardUpdate game.player2 board1 (turn1 = game.player2) true w,
                     .scheduleTeardown gameId])
            | _, _ => none
          else
            some (s1, [.boardUpdate game.player1 board1 (turn1 = game.player1) false w,
                       .boardUpdate game.player2 board1 (turn1 = game.player2) false w])
      else some (s, [])
  | .quitGame sid gameId =>
    match lookupA gameId s.activeGames with
    | none => some (s, [])
    | some game =>
      let opponentId := if sid = game.player1 then game.player2 else game.player1
      match dbUserFor sid s, dbUserFor opponentId s with
      | some qU, some oU =>
        let db1 := bumpDB qU.username
          (fun u => { u with games := u.games + 1, losses := u.losses + 1 }) s.dbUsers
        let db2 := bumpDB oU.username
          (fun u => { u with games := u.games + 1, wins := u.wins + 1 }) db1
        let s1 := { s with dbUsers := db2, activeGames := eraseA gameId s.activeGames }
        some (s1, [.opponentQuit opponentId, .youQuit sid, .lobbyUpdate (getLobbyUsers s1)])
      | _, _ => none
  | .disconnect sid =>
    -- only the lobby entry is removed; `activeGames` is left untouched
    let users1 := eraseA sid s.activeUsers
    let s1 := { s with activeUsers := users1 }
    some (s1, [.lobbyUpdate (getLobbyUsers s1)])

def runEvents : List Event → Option ServerState
  | es =>
    es.foldl (fun acc e => acc.bind (fun s => (handle s e).map Prod.fst)) (some initialState)

end SJ

/-! ## Claim C1 — one Session per participant -/

namespace SJ

/-- How many entries of the active-games registry hold `sid` in a player
slot. -/
def gamesContaining (sid : String) (s : ServerState) : Nat :=
  (s.activeGames.filter (fun p => p.2.player1 = sid || p.2.player2 = sid)).length

end SJ

/-- The two back-to-back unchecked `acceptChallenge` events of the
counterexample to C1 as stated. -/
def c1BadTrace : List SJ.Event :=
  [.acceptChallenge "B" "A", .acceptChallenge "C" "A"]

/-- The state they produce: participant `"A"` bound in two games at once. -/
def c1BadState : SJ.ServerState :=
  { dbUsers := [], activeUsers := [],
    activeGames :=
      [("AB0", ⟨"A", "B", List.replicate 9 none, "A", none⟩),
       ("AC1", ⟨"A", "C", List.replicate 9 none, "A", none⟩)],
    clock := 2 }

/-- C1 (counterexample): the claim quantifies over all operation sequences of
both cited variants, but `acceptChallenge` in `src/server.js` re-checks
nothing, so after two accepted challenges against the same participant the
connection id `"A"` occupies player slots of two distinct entries of the
active-games registry. -/
theorem claim_c1_counterexample :
    SJ.runEvents c1BadTrace = some c1BadState ∧
    c1BadState.activeGames.length = 2 ∧
    SJ.gamesContaining "A" c1BadState = 2 ∧
    "AB0" ≠ "AC1" :=
  ⟨rfl, rfl, rfl, by decide⟩

/-- The single-session property of a part_005 state: any two registry entries
sharing a (non-sentinel) connection id in their player slots are the same
entry, and entries are keyed distinctly. -/
def OneSessionPerId (s : P5.ServerState) : Prop :=
  (∀ a ∈ s.ongoingGames, ∀ b ∈ s.ongoingGames, ∀ sid, sid ≠ "BOT" →
    P5.InGameOf sid a.2 → P5.InGameOf sid b.2 → a = b) ∧
  s.ongoingGames.Pairwise (fun p q => p.1 ≠ q.1)

/-- C1 (amended): in the part_005 variant, along every event sequence whose
`exitToLobby` events name a game their sender plays in, no connection id
appears in the player slots of two distinct entries of the active-games
registry.  (Unrestricted exits break the invariant there — an exit naming a
foreign game clears the sender's in-game flag while leaving them bound — and
the lowdb variant violates the claim outright, see the counterexample.) -/
theorem claim_c1 {s : P5.ServerState} (h : P5.GoodReachable s) :
    OneSessionPerId s :=
  ⟨(P5.goodReachable_inv h).noDouble, (P5.goodReachable_inv h).keysDistinct⟩

/-- A concrete reachable two-player state for the C1 witness. -/
def c1WitnessState : P5.ServerState :=
  { lobbyUsers :=
      [("A", ⟨"alice", true, ⟨0, 0, 0⟩⟩), ("B", ⟨"bob", true, ⟨0, 0, 0⟩⟩)],
    ongoingGames :=
      [(0, { board := emptyBoard, currentPlayer := .X,
             players := [⟨"A", .X, "alice"⟩, ⟨"B", .O, "bob"⟩],
             winner := .ongoing, replayRequests := [], isBotGame := false })],
    nextGameId := 1 }

theorem claim_c1_witness : OneSessionPerId c1WitnessState :=
  claim_c1
    (P5.GoodReachable.step (P5.Event.challengeResponse "B" "A" true)
      (P5.GoodReachable.step (P5.Event.joinLobby "B" "bob")
        (P5.GoodReachable.step (P5.Event.joinLobby "A" "alice")
          P5.GoodReachable.init True.intro rfl)
        True.intro rfl)
      True.intro rfl)

/-! ## Claim C2 — silent rejection of invalid moves -/

namespace P5

theorem playerMove_noGame {s : ServerState} {sid : String} {gameId cellIndex : Nat}
    (hg : lookupA gameId s.ongoingGames = none) :
    handle s (.playerMove sid gameId cellIndex) = some (s, []) := by
  rw [handle]; simp [hg]

theorem playerMove_blockedOrDone {s : ServerState} {sid : String}
    {gameId cellIndex : Nat} {g : Game}
    (hg : lookupA gameId s.ongoingGames = some g)
    (hcond : (cellBlocked g.board cellIndex || decide (g.winner ≠ .ongoing)) = true) :
    handle s (.playerMove sid gameId cellIndex) = some (s, []) := by
  rw [handle]; simp only [hg, hcond, if_true]

theorem playerMove_noPlayer {s : ServerState} {sid : String}
    {gameId cellIndex : Nat} {g : Game}
    (hg : lookupA gameId s.ongoingGames = some g)
    (hcond : (cellBlocked g.board cellIndex || decide (g.winner ≠ .ongoing)) = false)
    (hf : g.players.find? (fun p => p.socketId = sid) = none) :
    handle s (.playerMove sid gameId cellIndex) = some (s, []) := by
  rw [handle]; simp [hg, hcond, hf]

theorem playerMove_wrongTurn {s : ServerState} {sid : String}
    {gameId cellIndex : Nat} {g : Game} {p : PlayerSlot}
    (hg : lookupA gameId s.ongoingGames = some g)
    (hcond : (cellBlocked g.board cellIndex || decide (g.winner ≠ .ongoing)) = false)
    (hf : g.players.find? (fun q => q.socketId = sid) = some p)
    (ht : g.currentPlayer ≠ p.symbol) :
    handle s (.playerMove sid gameId cellIndex) = some (s, []) := by
  rw [handle]; simp [hg, hcond, hf, ht]

end P5

namespace SJ

theorem makeMove_noGame {s : ServerState} {sid gameId symbol : String} {index : Nat}
    (hg : lookupA gameId s.activeGames = none) :
    handle s (.makeMove sid gameId index symbol) = some (s, []) := by
  rw [handle]; simp [hg]

theorem makeMove_wrongTurn {s : ServerState} {sid gameId symbol : String}
    {index : Nat} {g : Game}
    (hg : lookupA gameId s.activeGames = some g) (ht : g.currentTurn ≠ sid) :
    handle s (.makeMove sid gameId index symbol) = some (s, []) := by
  rw [handle]; simp [hg, ht]

theorem makeMove_cellTaken {s : ServerState} {sid gameId symbol : String}
    {index : Nat} {g : Game}
    (hg : lookupA gameId s.activeGames = some g)
    (hc : cellIsNull g.board index = false) :
    handle s (.makeMove sid gameId index symbol) = some (s, []) := by
  rw [handle]
  by_cases ht : g.currentTurn = sid
  · simp [hg, ht, hc]
  · simp [hg, ht]

end SJ

/-- C2 (amended): in part_005 every one of the four cited conditions —
nonexistent Session, terminal result, blocked cell (claimed or out of range),
side mismatch (including a caller who holds no slot) — leaves the state
untouched and emits nothing; in the lowdb server.js variant the same holds
for nonexistent Session, out-of-turn caller and non-empty cell, but a
terminal result is **not** among its checks (see the counterexample). -/
theorem claim_c2 :
    (∀ (s : P5.ServerState) (sid : String) (gameId cellIndex : Nat),
      (lookupA gameId s.ongoingGames = none ∨
        ∃ g, lookupA gameId s.ongoingGames = some g ∧
          (g.winner ≠ .ongoing ∨ P5.cellBlocked g.board cellIndex = true ∨
            g.players.find? (fun p => p.socketId = sid) = none ∨
            ∃ p, g.players.find? (fun q => q.socketId = sid) = some p ∧
              g.currentPlayer ≠ p.symbol)) →
      P5.handle s (.playerMove sid gameId cellIndex) = some (s, [])) ∧
    (∀ (s : SJ.ServerState) (sid gameId : String) (index : Nat) (symbol : String),
      (lookupA gameId s.activeGames = none ∨
        ∃ g, lookupA gameId s.activeGames = some g ∧
          (g.currentTurn ≠ sid ∨ SJ.cellIsNull g.board index = false)) →
      SJ.handle s (.makeMove sid gameId index symbol) = some (s, [])) := by
  constructor
  · intro s sid gameId cellIndex hrej
    rcases hrej with hng | ⟨g, hg, hcase⟩
    · exact P5.playerMove_noGame hng
    · rcases hcase with hw | hb | hnf | ⟨p, hf, ht⟩
      · exact P5.playerMove_blockedOrDone hg (by simp [hw])
      · exact P5.playerMove_blockedOrDone hg (by simp [hb])
      · by_cases hcond : (P5.cellBlocked g.board cellIndex ||
            decide (g.winner ≠ P5.WinState.ongoing)) = true
        · exact P5.playerMove_blockedOrDone hg hcond
        · exact P5.playerMove_noPlayer hg (Bool.not_eq_true _ ▸ Bool.of_not_eq_true hcond) hnf
      · by_cases hcond : (P5.cellBlocked g.board cellIndex ||
            decide (g.winner ≠ P5.WinState.ongoing)) = true
        · exact P5.playerMove_blockedOrDone hg hcond
        · exact P5.playerMove_wrongTurn hg
            (Bool.not_eq_true _ ▸ Bool.of_not_eq_true hcond) hf ht
  · intro s sid gameId index symbol hrej
    rcases hrej with hng | ⟨g, hg, hcase⟩
    · exact SJ.makeMove_noGame hng
    · rcases hcase with ht | hc
      · exact SJ.makeMove_wrongTurn hg ht
      · exact SJ.makeMove_cellTaken hg hc

theorem claim_c2_witness :
    P5.handle P5.initialState (.playerMove "A" 0 0) = some (P5.initialState, []) ∧
    SJ.handle SJ.initialState (.makeMove "A" "g" 0 "X") = some (SJ.initialState, []) :=
  ⟨claim_c2.1 _ _ _ _ (Or.inl rfl), claim_c2.2 _ _ _ _ _ (Or.inl rfl)⟩

/-- The reachable lowdb trace in which X completes the top row: login, join,
accept, then five alternating moves. -/
def c2WinTrace : List SJ.Event :=
  [.login "alice", .login "bob",
   .joinLobby "A" "alice", .joinLobby "B" "bob",
   .acceptChallenge "B" "A",
   .makeMove "A" "AB0" 0 "X", .makeMove "B" "AB0" 3 "O",
   .makeMove "A" "AB0" 1 "X", .makeMove "B" "AB0" 4 "O",
   .makeMove "A" "AB0" 2 "X"]

def c2WonGame : SJ.Game :=
  ⟨"A", "B",
   [some "X", some "X", some "X", some "O", some "O", none, none, none, none],
   "B", some "X"⟩

/-- The state right after the winning move, inside the teardown grace window:
the Session is still registered and carries the terminal result `"X"`. -/
def c2WonState : SJ.ServerState :=
  { dbUsers := [⟨"alice", 1, 1, 0⟩, ⟨"bob", 1, 0, 1⟩],
    activeUsers := [("A", "alice"), ("B", "bob")],
    activeGames := [("AB0", c2WonGame)],
    clock := 1 }

def c2AfterGame : SJ.Game :=
  ⟨"A", "B",
   [some "X", some "X", some "X", some "O", some "O", some "O", none, none, none],
   "A", some "X"⟩

def c2AfterState : SJ.ServerState :=
  { dbUsers := [⟨"alice", 2, 2, 0⟩, ⟨"bob", 2, 0, 2⟩],
    activeUsers := [("A", "alice"), ("B", "bob")],
    activeGames := [("AB0", c2AfterGame)],
    clock := 1 }

def c2AfterEmits : List SJ.Emit :=
  [.boardUpdate "A" c2AfterGame.board true true (some "X"),
   .boardUpdate "B" c2AfterGame.board false true (some "X"),
   .scheduleTeardown "AB0"]

/-- C2 (counterexample): in server.js a move on a Session that already has a
terminal result is accepted — the handler checks only existence, turn and
cell emptiness, never `game.winner` — so it mutates the board, flips the
turn, re-increments both persistent score records and broadcasts. -/
theorem claim_c2_counterexample :
    SJ.runEvents c2WinTrace = some c2WonState ∧
    c2WonGame.winner = some "X" ∧
    SJ.handle c2WonState (.makeMove "B" "AB0" 5 "O") =
      some (c2AfterState, c2AfterEmits) ∧
    c2AfterState ≠ c2WonState ∧
    c2AfterState.dbUsers ≠ c2WonState.dbUsers ∧
    c2AfterEmits ≠ [] :=
  ⟨rfl, rfl, rfl, by decide, by decide, by decide⟩

/-! ## Claim C3 — disconnect yields abandonment -/

/-- The trace for the C3 counterexample: two users, an accepted challenge,
then player1 disconnects. -/
def c3Trace : List SJ.Event :=
  [.joinLobby "A" "alice", .joinLobby "B" "bob",
   .acceptChallenge "B" "A", .disconnect "A"]

/-- The state after the disconnect: the lobby entry is gone, but the Session
is still registered, still waiting on the vanished player's turn. -/
def c3DanglingState : SJ.ServerState :=
  { dbUsers := [],
    activeUsers := [("B", "bob")],
    activeGames := [("AB0", ⟨"A", "B", List.replicate 9 none, "A", none⟩)],
    clock := 1 }

/-- C3 (counterexample): the server.js disconnect handler only deletes the
`activeUsers` entry and broadcasts the lobby — it never looks at
`activeGames`, so the Session containing the disconnected participant
dangles, and the opponent receives no `abandoned` notification (the emitted
effects of the disconnect step are exactly one `lobbyUpdate`). -/
theorem claim_c3_counterexample :
    SJ.runEvents c3Trace = some c3DanglingState ∧
    SJ.gamesContaining "A" c3DanglingState = 1 ∧
    SJ.handle
      { dbUsers := [], activeUsers := [("A", "alice"), ("B", "bob")],
        activeGames := [("AB0", ⟨"A", "B", List.replicate 9 none, "A", none⟩)],
        clock := 1 }
      (.disconnect "A") =
      some (c3DanglingState,
        [SJ.Emit.lobbyUpdate [("B", "bob", "in-game")]]) :=
  ⟨rfl, rfl, rfl⟩

/-- C3 (amended, part_005): in any state reachable with well-addressed exits,
disconnecting a participant bound to a Session whose remaining opponent slot
is human removes that Session (no registry entry keeps the leaver), emits an
`updateGame` to the opponent with result `abandoned`, and resets the
opponent's lobby entry to available. -/
theorem claim_c3 {s : P5.ServerState} (h : P5.GoodReachable s)
    {sid : String} {gid : Nat} {g : P5.Game} {opp : P5.PlayerSlot}
    (hsid : sid ≠ "BOT")
    (hg : lookupA gid s.ongoingGames = some g)
    (hin : P5.InGameOf sid g)
    (hopp : g.players.find? (fun p => p.socketId ≠ sid) = some opp)
    (hoppH : opp.socketId ≠ "BOT") :
    ∃ s' out, P5.handle s (.disconnect sid) = some (s', out) ∧
      lookupA gid s'.ongoingGames = none ∧
      (∀ p ∈ s'.ongoingGames, ¬ P5.InGameOf sid p.2) ∧
      (∃ u, lookupA opp.socketId s'.lobbyUsers = some u ∧ u.inGame = false) ∧
      P5.Emit.updateGameTo opp.socketId { g with winner := .abandoned } ∈ out := by
  have hInv := P5.goodReachable_inv h
  have hmemg : (gid, g) ∈ s.ongoingGames := lookupA_some_mem hg
  -- the leaver is registered in the lobby
  rcases hin with ⟨q, hq, hqs⟩
  rcases hInv.playerInLobby (gid, g) hmemg q hq (hqs ▸ hsid) with ⟨u, hu, hut⟩
  rw [hqs] at hu
  -- the registry search finds exactly this game
  have hpredg : (fun p : Nat × P5.Game =>
      p.2.players.any (fun q => q.socketId = sid)) (gid, g) = true := by
    simp only [List.any_eq_true]
    exact ⟨q, hq, by simp [hqs]⟩
  cases hfind : s.ongoingGames.find?
      (fun p => p.2.players.any (fun q => q.socketId = sid)) with
  | none =>
    exact absurd hpredg (by simpa using List.find?_eq_none.mp hfind (gid, g) hmemg)
  | some pair =>
    rcases pair with ⟨gidF, gameF⟩
    have hmemF : (gidF, gameF) ∈ s.ongoingGames := List.mem_of_find?_eq_some hfind
    have hpredF := List.find?_some hfind
    have hinF : P5.InGameOf sid gameF := by
      simp only [List.any_eq_true] at hpredF
      rcases hpredF with ⟨qF, hqF, hqFs⟩
      exact ⟨qF, hqF, by simpa using hqFs⟩
    have heq : (gidF, gameF) = (gid, g) :=
      hInv.noDouble (gidF, gameF) hmemF (gid, g) hmemg sid hsid hinF ⟨q, hq, hqs⟩
    rw [Prod.mk.injEq] at heq
    rw [heq.1, heq.2] at hfind
    -- the opponent slot is a registered human
    have hoppmem : opp ∈ g.players := List.mem_of_find?_eq_some hopp
    have hoppne : opp.socketId ≠ sid := by
      have := List.find?_some hopp
      simpa using this
    rcases hInv.playerInLobby (gid, g) hmemg opp hoppmem hoppH with ⟨uo, huo, huot⟩
    have hlookupOpp :
        lookupA opp.socketId
          (eraseA sid (updateA sid
            (fun u => { u with inGame := false }) s.lobbyUsers)) = some uo := by
      rw [lookupA_eraseA_ne _ _ _ hoppne, lookupA_updateA_ne _ _ _ _ hoppne, huo]
    refine
      ⟨{ s with
          lobbyUsers :=
            updateA opp.socketId (fun u => { u with inGame := false })
              (eraseA sid (updateA sid (fun u => { u with inGame := false }) s.lobbyUsers)),
          ongoingGames := eraseA gid s.ongoingGames },
        [P5.Emit.updateGameTo opp.socketId { g with winner := .abandoned },
         P5.Emit.lobbyData
           (updateA opp.socketId (fun u => { u with inGame := false })
             (eraseA sid (updateA sid (fun u => { u with inGame := false }) s.lobbyUsers)))],
        ?_, ?_, ?_, ?_, ?_⟩
    · rw [P5.handle]
      simp only [hu, hfind, hopp, hlookupOpp]
    · exact lookupA_eraseA_self gid s.ongoingGames
    · intro p hp hpin
      rcases mem_eraseA hp with ⟨hpm, hpk⟩
      have : p = (gid, g) :=
        hInv.noDouble p hpm (gid, g) hmemg sid hsid hpin ⟨q, hq, hqs⟩
      exact hpk (by rw [this])
    · rw [lookupA_updateA_self, hlookupOpp]
      exact ⟨_, rfl, rfl⟩
    · exact List.mem_cons_self _ _

/-- A shared concrete two-human reachable state used by witnesses. -/
def demoGame : P5.Game :=
  { board := emptyBoard, currentPlayer := .X,
    players := [⟨"A", .X, "alice"⟩, ⟨"B", .O, "bob"⟩],
    winner := .ongoing, replayRequests := [], isBotGame := false }

theorem claim_c3_witness :
    ("A" : String) ≠ "BOT" ∧
    lookupA 0 c1WitnessState.ongoingGames = some demoGame ∧
    P5.InGameOf "A" demoGame ∧
    (∃ s' out, P5.handle c1WitnessState (.disconnect "A") = some (s', out) ∧
      lookupA 0 s'.ongoingGames = none ∧
      (∀ p ∈ s'.ongoingGames, ¬ P5.InGameOf "A" p.2) ∧
      (∃ u, lookupA "B" s'.lobbyUsers = some u ∧ u.inGame = false) ∧
      P5.Emit.updateGameTo "B" { demoGame with winner := .abandoned } ∈ out) := by
  refine ⟨by decide, rfl, ⟨⟨"A", .X, "alice"⟩, by decide, rfl⟩, ?_⟩
  have hreach : P5.GoodReachable c1WitnessState :=
    P5.GoodReachable.step (P5.Event.challengeResponse "B" "A" true)
      (P5.GoodReachable.step (P5.Event.joinLobby "B" "bob")
        (P5.GoodReachable.step (P5.Event.joinLobby "A" "alice")
          P5.GoodReachable.init True.intro rfl)
        True.intro rfl)
      True.intro rfl
  exact @claim_c3 c1WitnessState hreach "A" 0 demoGame ⟨"B", .O, "bob"⟩
    (by decide) rfl ⟨⟨"A", .X, "alice"⟩, by decide, rfl⟩ rfl (by decide)

/-! ## Claim C4 — accepted moves alternate the side to move -/

/-- C4 (amended): an accepted part_005 move leaves a stored game whose side
to move differs from the mover's side unless the move produced a terminal
result; in server.js — where the turn marker is a socket id — the same holds
whenever the Session's two player slots hold distinct ids (the handler there
flips the turn even on a terminal move, which also satisfies the
alternation). -/
theorem claim_c4 :
    (∀ (s s' : P5.ServerState) (out : List P5.Emit) (sid : String)
        (gameId cellIndex : Nat) (g : P5.Game) (p : P5.PlayerSlot),
      P5.handle s (.playerMove sid gameId cellIndex) = some (s', out) →
      lookupA gameId s.ongoingGames = some g →
      g.players.find? (fun q => q.socketId = sid) = some p →
      (P5.cellBlocked g.board cellIndex || decide (g.winner ≠ .ongoing)) = false →
      g.currentPlayer = p.symbol →
      ∃ g', lookupA gameId s'.ongoingGames = some g' ∧
        (g'.winner = .ongoing → g'.currentPlayer ≠ p.symbol)) ∧
    (∀ (s s' : SJ.ServerState) (out : List SJ.Emit) (sid gameId symbol : String)
        (index : Nat) (g : SJ.Game),
      SJ.handle s (.makeMove sid gameId index symbol) = some (s', out) →
      lookupA gameId s.activeGames = some g →
      g.currentTurn = sid →
      SJ.cellIsNull g.board index = true →
      g.player1 ≠ g.player2 →
      ∃ g', lookupA gameId s'.activeGames = some g' ∧ g'.currentTurn ≠ sid) := by
  constructor
  · intro s s' out sid gameId cellIndex g p hstep hg hf hcond hturn
    rw [P5.handle] at hstep
    simp only [hg, hcond, hf] at hstep
    rw [if_neg (by simp), if_neg (by simp [hturn])] at hstep
    split at hstep
    case h_1 result hcw =>
      split at hstep
      case h_1 => exact absurd hstep (by simp)
      case h_2 lobby1 hlobby =>
        simp only [Option.some.injEq, Prod.mk.injEq] at hstep
        rcases hstep with ⟨hs, _⟩
        rw [← hs]
        refine ⟨{ g with board := g.board.set cellIndex (some p.symbol),
                         winner := P5.winOf result }, ?_, ?_⟩
        · rw [lookupA_updateA_self, hg]
          rfl
        · intro hwin
          exfalso
          cases result <;> simp [P5.winOf] at hwin
    case h_2 hcw =>
      simp only [Option.some.injEq, Prod.mk.injEq] at hstep
      rcases hstep with ⟨hs, _⟩
      rw [← hs]
      refine ⟨{ g with board := g.board.set cellIndex (some p.symbol),
                       currentPlayer := g.currentPlayer.flip }, ?_, ?_⟩
      · rw [lookupA_updateA_self, hg]
        rfl
      · intro _
        show g.currentPlayer.flip ≠ p.symbol
        rw [hturn]
        exact Side.flip_ne p.symbol
  · intro s s' out sid gameId symbol index g hstep hg hturn hcell hp12
    rw [SJ.handle] at hstep
    simp only [hg] at hstep
    rw [if_neg (by simp [hturn]), if_pos hcell] at hstep
    have hturnNe :
        (if g.currentTurn = g.player1 then g.player2 else g.player1) ≠ sid := by
      by_cases h1 : g.currentTurn = g.player1
      · rw [if_pos h1]
        intro hc
        exact hp12 ((h1.symm.trans hturn).trans hc.symm)
      · rw [if_neg h1]
        intro hc
        exact h1 (hturn.trans hc.symm)
    split at hstep
    case h_1 ws hw =>
      split at hstep
      case h_1 wU lU hwU hlU =>
        simp only [Option.some.injEq, Prod.mk.injEq] at hstep
        rcases hstep with ⟨hs, _⟩
        rw [← hs]
        refine ⟨{ g with board := g.board.set index (some symbol), currentTurn := (if g.currentTurn = g.player1 then g.player2 else g.player1), winner := SJ.checkWinner (g.board.set index (some symbol)) }, ?_, hturnNe⟩
        rw [lookupA_updateA_self, hg]
        rfl
      case h_2 => exact absurd hstep (by simp)
    case h_2 hw =>
      split at hstep
      · split at hstep
        case h_1 u1 u2 hu1 hu2 =>
          simp only [Option.some.injEq, Prod.mk.injEq] at hstep
          rcases hstep with ⟨hs, _⟩
          rw [← hs]
          refine ⟨{ g with board := g.board.set index (some symbol), currentTurn := (if g.currentTurn = g.player1 then g.player2 else g.player1), winner := SJ.checkWinner (g.board.set index (some symbol)) }, ?_, hturnNe⟩
          rw [lookupA_updateA_self, hg]
          rfl
        case h_2 => exact absurd hstep (by simp)
      · simp only [Option.some.injEq, Prod.mk.injEq] at hstep
        rcases hstep with ⟨hs, _⟩
        rw [← hs]
        refine ⟨{ g with board := g.board.set index (some symbol), currentTurn := (if g.currentTurn = g.player1 then g.player2 else g.player1), winner := SJ.checkWinner (g.board.set index (some symbol)) }, ?_, hturnNe⟩
        rw [lookupA_updateA_self, hg]
        rfl

theorem claim_c4_witness :
    P5.handle c1WitnessState (.playerMove "A" 0 4) =
      some ({ c1WitnessState with
                ongoingGames := [(0, { demoGame with
                  board := emptyBoard.set 4 (some .X), currentPlayer := .O })] },
            [P5.Emit.updateGameRoom 0
              { demoGame with board := emptyBoard.set 4 (some .X), currentPlayer := .O }]) ∧
    (∃ g', lookupA 0
        ({ c1WitnessState with
             ongoingGames := [(0, { demoGame with
               board := emptyBoard.set 4 (some .X), currentPlayer := .O })] }
          : P5.ServerState).ongoingGames = some g' ∧
      (g'.winner = P5.WinState.ongoing → g'.currentPlayer ≠ Side.X)) := by
  refine ⟨rfl, ?_⟩
  exact claim_c4.1 c1WitnessState _ _ "A" 0 4 demoGame ⟨"A", .X, "alice"⟩
    rfl rfl rfl (by decide) rfl

/-- The self-accepted challenge of the C4 counterexample: `"A"` accepts its
own challenge, so both player slots hold the same socket id. -/
def c4PreState : SJ.ServerState :=
  { dbUsers := [], activeUsers := [],
    activeGames := [("AA0", ⟨"A", "A", List.replicate 9 none, "A", none⟩)],
    clock := 1 }

def c4PostGame : SJ.Game :=
  ⟨"A", "A",
   [some "X", none, none, none, none, none, none, none, none],
   "A", none⟩

def c4SelfState : SJ.ServerState :=
  { dbUsers := [], activeUsers := [],
    activeGames := [("AA0", c4PostGame)],
    clock := 1 }

/-- C4 (counterexample): after server.js accepts a self-challenge, a move by
`"A"` is accepted (it is `"A"`'s turn and the cell is empty), produces no
terminal result, and yet leaves `currentTurn` equal to the socket that made
the move — the turn flip `p1 ↔ p2` is the identity when both slots hold the
same id. -/
theorem claim_c4_counterexample :
    SJ.runEvents [.acceptChallenge "A" "A"] = some c4PreState ∧
    SJ.handle c4PreState (.makeMove "A" "AA0" 0 "X") =
      some (c4SelfState,
        [.boardUpdate "A" c4PostGame.board true false none,
         .boardUpdate "A" c4PostGame.board true false none]) ∧
    lookupA "AA0" c4SelfState.activeGames = some c4PostGame ∧
    c4PostGame.currentTurn = "A" ∧
    c4PostGame.winner = none ∧
    SJ.isDraw c4PostGame.board = false :=
  ⟨rfl, rfl, rfl, rfl, rfl, rfl⟩

/-! ## Claim C6 — the outcome evaluator -/

theorem scanCombos_sound {board : List (Option Side)}
    {cs : List (Nat × Nat × Nat)} {s : Side}
    (h : scanCombos board cs = some s) :
    ∃ t ∈ cs, board.getD t.1 none = some s ∧
      board.getD t.2.1 none = some s ∧ board.getD t.2.2 none = some s := by
  induction cs with
  | nil => simp [scanCombos] at h
  | cons t rest ih =>
    rcases t with ⟨a, b, c⟩
    rw [scanCombos] at h
    cases hga : board.getD a none with
    | none =>
      simp only [hga] at h
      rcases ih h with ⟨t, ht, hc⟩
      exact ⟨t, List.mem_cons_of_mem _ ht, hc⟩
    | some v =>
      simp only [hga] at h
      by_cases hcond : board.getD b none = some v ∧ board.getD c none = some v
      · rw [if_pos hcond] at h
        have hv : v = s := Option.some.inj h
        subst hv
        exact ⟨(a, b, c), List.mem_cons_self _ _, hga, hcond.1, hcond.2⟩
      · rw [if_neg hcond] at h
        rcases ih h with ⟨t, ht, hc⟩
        exact ⟨t, List.mem_cons_of_mem _ ht, hc⟩

theorem scanCombos_complete {board : List (Option Side)}
    {cs : List (Nat × Nat × Nat)} {t₀ : Nat × Nat × Nat} {s : Side}
    (hmem : t₀ ∈ cs)
    (hc : board.getD t₀.1 none = some s ∧ board.getD t₀.2.1 none = some s ∧
      board.getD t₀.2.2 none = some s) :
    ∃ s', scanCombos board cs = some s' := by
  induction cs with
  | nil => simp at hmem
  | cons t rest ih =>
    rcases t with ⟨a, b, c⟩
    rcases List.mem_cons.mp hmem with hh | hh
    · subst hh
      rw [scanCombos]
      simp only [hc.1]
      rw [if_pos ⟨hc.2.1, hc.2.2⟩]
      exact ⟨s, rfl⟩
    · rw [scanCombos]
      cases hga : board.getD a none with
      | none => exact ih hh
      | some v =>
        dsimp only
        by_cases hcond : board.getD b none = some v ∧ board.getD c none = some v
        · rw [if_pos hcond]
          exact ⟨v, rfl⟩
        · rw [if_neg hcond]
          exact ih hh

theorem scanCombos_none_iff {board : List (Option Side)} :
    scanCombos board winningCombos = none ↔ ∀ s, ¬ lineComplete board s := by
  constructor
  · intro h s hline
    rcases hline with ⟨t, ht, hc1, hc2, hc3⟩
    rcases scanCombos_complete ht ⟨hc1, hc2, hc3⟩ with ⟨s', hs'⟩
    rw [h] at hs'
    exact Option.noConfusion hs'
  · intro h
    cases hs : scanCombos board winningCombos with
    | none => rfl
    | some s =>
      rcases scanCombos_sound hs with ⟨t, ht, hc⟩
      exact absurd ⟨t, ht, hc⟩ (h s)

/-- C6 (amended): the evaluator is the pure function `checkWinner` of the
board alone (so its output depends only on the cell-claim pattern), and
returns exactly one of no-result, win or draw with: a win result always
exhibits a complete line for the winning side; a side with a complete line
wins whenever the opposite side does not also have one (on the double-line
boards, unreachable in alternating play, the `for` loop returns the earliest
complete line's owner — see the counterexample); draw exactly on a full
board with no complete line; and no result exactly on a non-full board with
no complete line. -/
theorem claim_c6 :
    (∀ (b : List (Option Side)) (s : Side),
      checkWinner b = some (.winSide s) → lineComplete b s) ∧
    (∀ (b : List (Option Side)) (s : Side),
      lineComplete b s → ¬ lineComplete b s.flip →
        checkWinner b = some (.winSide s)) ∧
    (∀ b : List (Option Side),
      checkWinner b = some .draw ↔
        (b.all (fun c => c.isSome) = true ∧ ∀ s, ¬ lineComplete b s)) ∧
    (∀ b : List (Option Side),
      checkWinner b = none ↔
        (b.all (fun c => c.isSome) = false ∧ ∀ s, ¬ lineComplete b s)) := by
  refine ⟨?_, ?_, ?_, ?_⟩
  · intro b s h
    rw [checkWinner] at h
    cases hs : scanCombos b winningCombos with
    | none =>
      rw [hs] at h
      by_cases hall : b.all (fun c => c.isSome) = true
      · rw [if_pos hall] at h; simp at h
      · rw [if_neg hall] at h; simp at h
    | some s' =>
      rw [hs] at h
      simp only [Option.some.injEq, GameResult.winSide.injEq] at h
      subst h
      rcases scanCombos_sound hs with ⟨t, ht, hc⟩
      exact ⟨t, ht, hc⟩
  · intro b s hline hflip
    rcases hline with ⟨t, ht, hc1, hc2, hc3⟩
    rcases scanCombos_complete ht ⟨hc1, hc2, hc3⟩ with ⟨s', hs'⟩
    have hs'line : lineComplete b s' := by
      rcases scanCombos_sound hs' with ⟨t', ht', hc'⟩
      exact ⟨t', ht', hc'⟩
    have hss : s' = s := by
      cases s <;> cases s' <;> first | rfl | exact absurd hs'line hflip
    rw [checkWinner, hs', hss]
  · intro b
    constructor
    · intro h
      rw [checkWinner] at h
      cases hs : scanCombos b winningCombos with
      | some s' => rw [hs] at h; simp at h
      | none =>
        rw [hs] at h
        by_cases hall : b.all (fun c => c.isSome) = true
        · exact ⟨hall, scanCombos_none_iff.mp hs⟩
        · rw [if_neg hall] at h; simp at h
    · intro ⟨hall, hnone⟩
      rw [checkWinner, scanCombos_none_iff.mpr hnone, if_pos hall]
  · intro b
    constructor
    · intro h
      rw [checkWinner] at h
      cases hs : scanCombos b winningCombos with
      | some s' => rw [hs] at h; simp at h
      | none =>
        rw [hs] at h
        by_cases hall : b.all (fun c => c.isSome) = true
        · rw [if_pos hall] at h; simp at h
        · exact ⟨Bool.not_eq_true _ ▸ Bool.of_not_eq_true hall,
            scanCombos_none_iff.mp hs⟩
    · intro ⟨hall, hnone⟩
      rw [checkWinner, scanCombos_none_iff.mpr hnone, if_neg (by simp [hall])]

/-- A board (unreachable in alternating play) on which both sides complete a
line: the row-major combo order makes X's top row win. -/
def c6DoubleBoard : List (Option Side) :=
  [some .X, some .X, some .X, some .O, some .O, some .O, none, none, none]

/-- C6 (counterexample): the claim's biconditional "returns win(s) exactly
when some line is complete for s" fails as stated: on `c6DoubleBoard` side O
has a complete line yet the evaluator returns win(X), the owner of the
earliest complete line in the fixed combo order. -/
theorem claim_c6_counterexample :
    checkWinner c6DoubleBoard = some (.winSide .X) ∧
    lineComplete c6DoubleBoard .O ∧
    checkWinner c6DoubleBoard ≠ some (.winSide .O) :=
  ⟨rfl, by decide, by decide⟩

def c6WinBoard : List (Option Side) :=
  [some .X, some .X, some .X, none, none, none, none, none, none]

theorem claim_c6_witness :
    lineComplete c6WinBoard .X ∧ ¬ lineComplete c6WinBoard Side.X.flip ∧
    checkWinner c6WinBoard = some (.winSide .X) :=
  ⟨by decide, by decide, claim_c6.2.1 c6WinBoard .X (by decide) (by decide)⟩

/-! ## Claim C5 — rematch by consent -/

namespace P5

/-- The consent list after a `requestReplay` from `sid` (push unless already
present). -/
def requestsAfter (sid : String) (g : Game) : List String :=
  if sid ∈ g.replayRequests then g.replayRequests else g.replayRequests ++ [sid]

/-- The in-place reset of a two-human game: fresh board, X to move, result
cleared, consent set emptied; id, players and flags unchanged. -/
def resetHuman (g : Game) : Game :=
  { g with board := emptyBoard, currentPlayer := .X, winner := .ongoing,
           replayRequests := [] }

/-- The in-place reset of a bot game (the consent set is untouched there). -/
def resetBot (g : Game) : Game :=
  { g with board := emptyBoard, currentPlayer := .X, winner := .ongoing }

end P5

/-- C5 (amended): `requestReplay` on a bot Session resets immediately and
broadcasts; on a two-human Session it records the caller's consent, leaves
board, side-to-move and result untouched and emits nothing while the consent
list stays shorter than two, and resets the same Session in place, empties
the consent list and broadcasts the fresh state exactly when the list
reaches two entries — but consent is counted from any two distinct sender
ids, participants of the Session or not (see the counterexample). -/
theorem claim_c5 :
    (∀ (s : P5.ServerState) (sid : String) (gid : Nat) (g : P5.Game),
      lookupA gid s.ongoingGames = some g → g.isBotGame = true →
      P5.handle s (.requestReplay sid gid) =
        some ({ s with ongoingGames :=
                          updateA gid (fun _ => P5.resetBot g) s.ongoingGames },
              [.updateGameRoom gid (P5.resetBot g)])) ∧
    (∀ (s : P5.ServerState) (sid : String) (gid : Nat) (g : P5.Game),
      lookupA gid s.ongoingGames = some g → g.isBotGame = false →
      (P5.requestsAfter sid g).length ≠ 2 →
      sid ∈ P5.requestsAfter sid g ∧
      P5.handle s (.requestReplay sid gid) =
        some ({ s with ongoingGames :=
                          updateA gid
                            (fun _ => { g with replayRequests := P5.requestsAfter sid g })
                            s.ongoingGames },
              [])) ∧
    (∀ (s : P5.ServerState) (sid : String) (gid : Nat) (g : P5.Game),
      lookupA gid s.ongoingGames = some g → g.isBotGame = false →
      (P5.requestsAfter sid g).length = 2 →
      P5.handle s (.requestReplay sid gid) =
        some ({ s with ongoingGames :=
                          updateA gid (fun _ => P5.resetHuman g) s.ongoingGames },
              [.updateGameRoom gid (P5.resetHuman g)])) := by
  refine ⟨?_, ?_, ?_⟩
  · intro s sid gid g hg hbot
    rw [P5.handle]
    simp only [hg, hbot, if_true]
    simp [P5.resetBot, hbot]
  · intro s sid gid g hg hbot hlen
    constructor
    · rw [P5.requestsAfter]
      by_cases hmem : sid ∈ g.replayRequests
      · rw [if_pos hmem]; exact hmem
      · rw [if_neg hmem]; simp
    · rw [P5.handle]
      simp only [hg, hbot, Bool.false_eq_true, if_false]
      rw [P5.requestsAfter] at hlen ⊢
      by_cases hmem : sid ∈ g.replayRequests
      · rw [if_pos hmem] at hlen ⊢
        rw [if_neg hlen]
      · rw [if_neg hmem] at hlen ⊢
        rw [if_neg hlen]
  · intro s sid gid g hg hbot hlen
    rw [P5.handle]
    simp only [hg, hbot, Bool.false_eq_true, if_false]
    rw [P5.requestsAfter] at hlen
    by_cases hmem : sid ∈ g.replayRequests
    · rw [if_pos hmem] at hlen
      rw [if_pos hmem, if_pos hlen]
      simp [P5.resetHuman, hbot]
    · rw [if_neg hmem] at hlen
      rw [if_neg hmem, if_pos hlen]
      simp [P5.resetHuman, hbot]

/-- A bot Session mid-game, for the C5 witness. -/
def c5BotGame : P5.Game :=
  { board := emptyBoard.set 0 (some .X), currentPlayer := .O,
    players := [⟨"A", .X, "alice"⟩, ⟨"BOT", .O, "Bot"⟩],
    winner := .ongoing, replayRequests := [], isBotGame := true }

def c5BotState : P5.ServerState :=
  { lobbyUsers := [("A", ⟨"alice", true, ⟨0, 0, 0⟩⟩)],
    ongoingGames := [(0, c5BotGame)],
    nextGameId := 1 }

theorem claim_c5_witness :
    (P5.handle c5BotState (.requestReplay "A" 0) =
      some ({ c5BotState with ongoingGames :=
                                updateA 0 (fun _ => P5.resetBot c5BotGame)
                                  c5BotState.ongoingGames },
            [.updateGameRoom 0 (P5.resetBot c5BotGame)])) ∧
    ("A" ∈ P5.requestsAfter "A" demoGame ∧
      P5.handle c1WitnessState (.requestReplay "A" 0) =
        some ({ c1WitnessState with ongoingGames :=
                                      updateA 0
                                        (fun _ => { demoGame with replayRequests :=
                                                      P5.requestsAfter "A" demoGame })
                                        c1WitnessState.ongoingGames },
              [])) :=
  ⟨claim_c5.1 c5BotState "A" 0 c5BotGame rfl rfl,
   claim_c5.2.1 c1WitnessState "A" 0 demoGame rfl rfl (by decide)⟩

/-- The two-human game of the C5 counterexample, mid-game, with consent
already recorded from the non-participant `"C"`. -/
def c5Game : P5.Game :=
  { board := [some .X, none, none, none, none, none, none, none, none],
    currentPlayer := .O,
    players := [⟨"A", .X, "alice"⟩, ⟨"B", .O, "bob"⟩],
    winner := .ongoing, replayRequests := ["C"], isBotGame := false }

def c5State : P5.ServerState :=
  { lobbyUsers :=
      [("A", ⟨"alice", true, ⟨0, 0, 0⟩⟩), ("B", ⟨"bob", true, ⟨0, 0, 0⟩⟩),
       ("C", ⟨"carol", false, ⟨0, 0, 0⟩⟩), ("D", ⟨"dave", false, ⟨0, 0, 0⟩⟩)],
    ongoingGames := [(0, c5Game)],
    nextGameId := 1 }

/-- The trace reaching `c5State`: four users join, A and B play, the
spectator `"C"` sends a replay request for their game. -/
def c5Trace : List P5.Event :=
  [.joinLobby "A" "alice", .joinLobby "B" "bob",
   .joinLobby "C" "carol", .joinLobby "D" "dave",
   .challengeResponse "B" "A" true,
   .playerMove "A" 0 0,
   .requestReplay "C" 0]

/-- C5 (counterexample): the handler never checks that a consenter is a
participant of the Session, so a second outsider's request (`"D"` after
`"C"`) resets A-and-B's board and broadcasts a fresh state although neither
participant ever consented. -/
theorem claim_c5_counterexample :
    P5.runEvents c5Trace = some c5State ∧
    "A" ∉ c5Game.replayRequests ∧ "B" ∉ c5Game.replayRequests ∧
    P5.handle c5State (.requestReplay "D" 0) =
      some ({ c5State with ongoingGames := [(0, P5.resetHuman c5Game)] },
            [.updateGameRoom 0 (P5.resetHuman c5Game)]) ∧
    (P5.resetHuman c5Game).board = emptyBoard ∧
    c5Game.board ≠ emptyBoard :=
  ⟨rfl, by decide, by decide, rfl, rfl, by decide⟩

/-! ## `P3` — the server in `src/unnamed/part_003`

The data model of part_003 is byte-for-byte the one of part_005 (`lobbyUsers`
entries with score records, `ongoingGames` values with `replayRequests` and
`isBotGame`), so the `P5` structure types are reused; only the handlers
differ.  The handlers embedded here are the ones the claims reference:
`joinLobby`, `playWithBot`, `playerMove` (which, unlike part_005's, contains
the inline bot reply), `exitToLobby` and `disconnect` (both of which, unlike
part_005's, guard the opponent update with `opponent.socketId !== "BOT"`).
`Math.floor(Math.random() * emptyIndices.length)` is modelled by
`rng % emptyIndices.length` for an oracle value `rng` carried on the move
event. -/

namespace P3

/-- Indices of the `null` cells, as built by the `map`/`filter` pair in the
bot branch. -/
def emptyIndices (b : List (Option Side)) : List Nat :=
  (List.range b.length).filter (fun i => (b.getD i (some .X)).isNone)

inductive Event
  | joinLobby (sid : String) (username : String)
  | playWithBot (sid : String)
  | playerMove (sid : String) (gameId : Nat) (cellIndex : Nat) (rng : Nat)
  | exitToLobby (sid : String) (gameId : Nat)
  | disconnect (sid : String)
deriving DecidableEq, Repr

inductive Emit
  | lobbyData (users : List (String × P5.User))
  | startGame (target : String) (gameId : Nat) (g : P5.Game)
  | updateGameRoom (gameId : Nat) (g : P5.Game)
  | updateGameTo (target : String) (g : P5.Game)
  | returnedToLobby (target : String)
deriving DecidableEq, Repr

/-- The score updates of the bot branch: on a draw the human's draw counter,
on an O win the X player's loss counter, on an X win the X player's win
counter; each guarded by `if (userPlayer)` but with an unguarded
`lobbyUsers.get`. -/
def botScores (game : P5.Game) (botResult : GameResult)
    (lobby : List (String × P5.User)) : Option (List (String × P5.User)) :=
  match botResult with
  | .draw =>
    match game.players.find? (fun p => p.socketId ≠ "BOT") with
    | none => some lobby
    | some up =>
      P5.bumpScore up.socketId (fun sc => { sc with draws := sc.draws + 1 }) lobby
  | .winSide .O =>
    match game.players.find? (fun p => p.symbol = Side.X) with
    | none => some lobby
    | some up =>
      P5.bumpScore up.socketId (fun sc => { sc with losses := sc.losses + 1 }) lobby
  | .winSide .X =>
    match game.players.find? (fun p => p.symbol = Side.X) with
    | none => some lobby
    | some up =>
      P5.bumpScore up.socketId (fun sc => { sc with wins := sc.wins + 1 }) lobby

def handle (s : P5.ServerState) : Event → Option (P5.ServerState × List Emit)
  | .joinLobby sid username =>
    match lookupA sid s.lobbyUsers with
    | some _ => some (s, [])
    | none =>
      let lobby1 := s.lobbyUsers ++ [(sid, ⟨username, false, ⟨0, 0, 0⟩⟩)]
      some ({ s with lobbyUsers := lobby1 }, [.lobbyData lobby1])
  | .playWithBot sid =>
    match lookupA sid s.lobbyUsers with
    | none => some (s, [])
    | some user =>
      if user.inGame then some (s, [])
      else
        let gid := s.nextGameId
        let g : P5.Game :=
          { board := emptyBoard, currentPlayer := .X,
            players := [⟨sid, .X, user.username⟩, ⟨"BOT", .O, "Bot"⟩],
            winner := .ongoing, replayRequests := [], isBotGame := true }
        let lobby1 := updateA sid (fun u => { u with inGame := true }) s.lobbyUsers
        some ({ s with lobbyUsers := lobby1,
                       ongoingGames := s.ongoingGames ++ [(gid, g)],
                       nextGameId := gid + 1 },
              [.startGame sid gid g, .lobbyData lobby1])
  | .playerMove sid gameId cellIndex rng =>
    match lookupA gameId s.ongoingGames with
    | none => some (s, [])
    | some game =>
      if P5.cellBlocked game.board cellIndex || game.winner ≠ P5.WinState.ongoing then
        some (s, [])
      else
        match game.players.find? (fun p => p.socketId = sid) with
        | none => some (s, [])
        | some player =>
          if player.symbol ≠ game.currentPlayer then some (s, [])
          else
            let board1 := game.board.set cellIndex (some player.symbol)
            match checkWinner board1 with
            | some result =>
              let g1 := { game with board := board1, winner := P5.winOf result }
              let lobby1? :=
                match result with
                | .draw => P5.bumpDraws game.players s.lobbyUsers
                | .winSide w => P5.bumpWinLoss game w s.lobbyUsers
              match lobby1? with
              | none => none
              | some lobby1 =>
                some ({ s with lobbyUsers := lobby1,
                               ongoingGames := updateA gameId (fun _ => g1) s.ongoingGames },
                      [.updateGameRoom gameId g1, .lobbyData lobby1])
            | none =>
              let turn1 := game.currentPlayer.flip
              if game.isBotGame = true ∧ turn1 = Side.O ∧ game.winner = P5.WinState.ongoing then
                let empty1 := emptyIndices board1
                if empty1.length ≠ 0 then
                  let botMove := empty1.getD (rng % empty1.length) 0
                  let board2 := board1.set botMove (some Side.O)
                  match checkWinner board2 with
                  | some botResult =>
                    let g2 := { game with board := board2, currentPlayer := turn1,
                                          winner := P5.winOf botResult }
                    match botScores game botResult s.lobbyUsers with
                    | none => none
                    | some lobby1 =>
                      some ({ s with lobbyUsers := lobby1,
                                     ongoingGames :=
                                       updateA gameId (fun _ => g2) s.ongoingGames },
                            [.updateGameRoom gameId g2, .lobbyData lobby1])
                  | none =>
                    let g2 := { game with board := board2, currentPlayer := Side.X }
                    some ({ s with ongoingGames := updateA gameId (fun _ => g2) s.ongoingGames },
                          [.updateGameRoom gameId g2, .lobbyData s.lobbyUsers])
                else
                  let g1 := { game with board := board1, currentPlayer := turn1 }
                  some ({ s with ongoingGames := updateA gameId (fun _ => g1) s.ongoingGames },
                        [.updateGameRoom gameId g1, .lobbyData s.lobbyUsers])
              else
                let g1 := { game with board := board1, currentPlayer := turn1 }
                some ({ s with ongoingGames := updateA gameId (fun _ => g1) s.ongoingGames },
                      [.updateGameRoom gameId g1, .lobbyData s.lobbyUsers])
  | .exitToLobby sid gameId =>
    match lookupA gameId s.ongoingGames with
    | none => some (s, [])
    | some game =>
      let lobby1 := updateA sid (fun u => { u with inGame := false }) s.lobbyUsers
      if game.isBotGame then
        some ({ s with lobbyUsers := lobby1, ongoingGames := eraseA gameId s.ongoingGames },
              [.lobbyData lobby1, .returnedToLobby sid])
      else
        match game.players.find? (fun p => p.socketId ≠ sid) with
        | none =>
          some ({ s with lobbyUsers := lobby1, ongoingGames := eraseA gameId s.ongoingGames },
                [.lobbyData lobby1, .returnedToLobby sid])
        | some opponent =>
          if opponent.socketId = "BOT" then
            some ({ s with lobbyUsers := lobby1,
                           ongoingGames := eraseA gameId s.ongoingGames },
                  [.lobbyData lobby1, .returnedToLobby sid])
          else
            -- `const oppUser = lobbyUsers.get(...); if (oppUser) ...` — guarded
            let lobby2 := updateA opponent.socketId (fun u => { u with inGame := false }) lobby1
            some ({ s with lobbyUsers := lobby2,
                           ongoingGames := eraseA gameId s.ongoingGames },
                  [.updateGameTo opponent.socketId { game with winner := .abandoned },
                   .lobbyData lobby2, .returnedToLobby sid])
  | .disconnect sid =>
    match lookupA sid s.lobbyUsers with
    | none => some (s, [])
    | some _ =>
      let lobby1 := eraseA sid (updateA sid (fun u => { u with inGame := false }) s.lobbyUsers)
      match s.ongoingGames.find? (fun p => p.2.players.any (fun q => q.socketId = sid)) with
      | none => some ({ s with lobbyUsers := lobby1 }, [.lobbyData lobby1])
      | some (gid, game) =>
        match game.players.find? (fun p => p.socketId ≠ sid) with
        | none =>
          some ({ s with lobbyUsers := lobby1, ongoingGames := eraseA gid s.ongoingGames },
                [.lobbyData lobby1])
        | some opponent =>
          if opponent.socketId = "BOT" then
            some ({ s with lobbyUsers := lobby1,
                           ongoingGames := eraseA gid s.ongoingGames },
                  [.lobbyData lobby1])
          else
            match lookupA opponent.socketId lobby1 with
            | none => none
            | some _ =>
              let lobby2 := updateA opponent.socketId (fun u => { u with inGame := false }) lobby1
              some ({ s with lobbyUsers := lobby2, ongoingGames := eraseA gid s.ongoingGames },
                    [.updateGameTo opponent.socketId { game with winner := .abandoned },
                     .lobbyData lobby2])

def runEvents : List Event → Option P5.ServerState
  | es =>
    es.foldl (fun acc e => acc.bind (fun s => (handle s e).map Prod.fst)) (some P5.initialState)

end P3

/-! ## Claim C7 — synchronous automated reply -/

def c7StalledGame : P5.Game :=
  { board := [some .X, none, none, none, none, none, none, none, none],
    currentPlayer := .O,
    players := [⟨"A", .X, "alice"⟩, ⟨"BOT", .O, "Bot"⟩],
    winner := .ongoing, replayRequests := [], isBotGame := true }

/-- part_005 after join, playWithBot and one human move: the automated side
is on turn and no reply ever comes. -/
def c7P5Stalled : P5.ServerState :=
  { lobbyUsers := [("A", ⟨"alice", true, ⟨0, 0, 0⟩⟩)],
    ongoingGames := [(0, c7StalledGame)],
    nextGameId := 1 }

def c7P3Pre : P5.ServerState :=
  { lobbyUsers := [("A", ⟨"alice", true, ⟨0, 0, 0⟩⟩)],
    ongoingGames :=
      [(0, { board := emptyBoard, currentPlayer := .X,
             players := [⟨"A", .X, "alice"⟩, ⟨"BOT", .O, "Bot"⟩],
             winner := .ongoing, replayRequests := [], isBotGame := true })],
    nextGameId := 1 }

def c7P3Game : P5.Game :=
  { board := [some .X, some .O, none, none, none, none, none, none, none],
    currentPlayer := .X,
    players := [⟨"A", .X, "alice"⟩, ⟨"BOT", .O, "Bot"⟩],
    winner := .ongoing, replayRequests := [], isBotGame := true }

def c7P3Post : P5.ServerState :=
  { lobbyUsers := [("A", ⟨"alice", true, ⟨0, 0, 0⟩⟩)],
    ongoingGames := [(0, c7P3Game)],
    nextGameId := 1 }

/-- C7 (code bug in part_005): in part_005 the `playerMove` handler has no
bot branch at all, so after the human's first move in a `playWithBot`
Session it is the automated side's turn, the game is non-terminal, the
single broadcast reflects only the human half-turn, and every further human
move is silently rejected — the Session is stalled forever.  part_003's
`playerMove` (the cited bot branch) behaves as the claim says: the same
trace leaves a board holding both half-turns, the turn back with the human,
and one `updateGame` emission carrying both. -/
theorem claim_c7 :
    P5.runEvents
      [.joinLobby "A" "alice", .playWithBot "A", .playerMove "A" 0 0] =
      some c7P5Stalled ∧
    lookupA 0 c7P5Stalled.ongoingGames = some c7StalledGame ∧
    c7StalledGame.currentPlayer = Side.O ∧
    c7StalledGame.winner = P5.WinState.ongoing ∧
    c7StalledGame.board.count (some Side.O) = 0 ∧
    P5.handle c7P5Stalled (.playerMove "A" 0 4) = some (c7P5Stalled, []) ∧
    P3.runEvents [.joinLobby "A" "alice", .playWithBot "A"] = some c7P3Pre ∧
    P3.handle c7P3Pre (.playerMove "A" 0 0 0) =
      some (c7P3Post,
        [P3.Emit.updateGameRoom 0 c7P3Game,
         P3.Emit.lobbyData c7P3Post.lobbyUsers]) ∧
    c7P3Game.board.count (some Side.O) = 1 ∧
    c7P3Game.currentPlayer = Side.X :=
  ⟨rfl, rfl, rfl, rfl, by decide, rfl, rfl, rfl, by decide, rfl⟩

/-! ## Claim C8 — abandonment changes no score counters -/

/-- Score preservation through one `user.inGame = false` object mutation. -/
theorem scores_after_setFalse (j k : String) (l : List (String × P5.User))
    {u : P5.User} (hu : lookupA k l = some u) :
    ∃ u', lookupA k (updateA j (fun v => { v with inGame := false }) l) = some u' ∧
      u'.score = u.score := by
  by_cases hk : k = j
  · subst hk
    rw [lookupA_updateA_self, hu]
    exact ⟨_, rfl, rfl⟩
  · rw [lookupA_updateA_ne _ _ _ _ hk, hu]
    exact ⟨u, rfl, rfl⟩

/-- C8 (amended): neither `exitToLobby` nor `disconnect` in part_003, neither
`exitToLobby` nor `disconnect` in part_005, nor `disconnect` in server.js
changes any score counter — every lobby record surviving the event keeps its
exact score, and the lowdb table is untouched by a disconnect.  The lowdb
`quitGame`, by contrast, does write scores (see the counterexample). -/
theorem claim_c8 :
    (∀ (s s' : P5.ServerState) (out : List P3.Emit) (sid : String) (gid : Nat),
      P3.handle s (.exitToLobby sid gid) = some (s', out) →
      ∀ k u, lookupA k s.lobbyUsers = some u →
        ∃ u', lookupA k s'.lobbyUsers = some u' ∧ u'.score = u.score) ∧
    (∀ (s s' : P5.ServerState) (out : List P3.Emit) (sid : String),
      P3.handle s (.disconnect sid) = some (s', out) →
      ∀ k u, k ≠ sid → lookupA k s.lobbyUsers = some u →
        ∃ u', lookupA k s'.lobbyUsers = some u' ∧ u'.score = u.score) ∧
    (∀ (s s' : P5.ServerState) (out : List P5.Emit) (sid : String) (gid : Nat),
      P5.handle s (.exitToLobby sid gid) = some (s', out) →
      ∀ k u, lookupA k s.lobbyUsers = some u →
        ∃ u', lookupA k s'.lobbyUsers = some u' ∧ u'.score = u.score) ∧
    (∀ (s s' : P5.ServerState) (out : List P5.Emit) (sid : String),
      P5.handle s (.disconnect sid) = some (s', out) →
      ∀ k u, k ≠ sid → lookupA k s.lobbyUsers = some u →
        ∃ u', lookupA k s'.lobbyUsers = some u' ∧ u'.score = u.score) ∧
    (∀ (s s' : SJ.ServerState) (out : List SJ.Emit) (sid : String),
      SJ.handle s (.disconnect sid) = some (s', out) →
      s'.dbUsers = s.dbUsers) := by
  refine ⟨?_, ?_, ?_, ?_, ?_⟩
  · intro s s' out sid gid h k u hu
    rw [P3.handle] at h
    split at h
    case h_1 =>
      simp only [Option.some.injEq, Prod.mk.injEq] at h
      rw [← h.1]
      exact ⟨u, hu, rfl⟩
    case h_2 game hg =>
      split at h
      · simp only [Option.some.injEq, Prod.mk.injEq] at h
        rw [← h.1]
        exact scores_after_setFalse sid k s.lobbyUsers hu
      · split at h
        case h_1 =>
          simp only [Option.some.injEq, Prod.mk.injEq] at h
          rw [← h.1]
          exact scores_after_setFalse sid k s.lobbyUsers hu
        case h_2 opponent hopp =>
          split at h
          · simp only [Option.some.injEq, Prod.mk.injEq] at h
            rw [← h.1]
            exact scores_after_setFalse sid k s.lobbyUsers hu
          · simp only [Option.some.injEq, Prod.mk.injEq] at h
            rw [← h.1]
            rcases scores_after_setFalse sid k s.lobbyUsers hu with ⟨u1, hu1, hs1⟩
            rcases scores_after_setFalse opponent.socketId k _ hu1 with ⟨u2, hu2, hs2⟩
            exact ⟨u2, hu2, hs2.trans hs1⟩
  · intro s s' out sid h k u hk hu
    rw [P3.handle] at h
    split at h
    case h_1 =>
      simp only [Option.some.injEq, Prod.mk.injEq] at h
      rw [← h.1]
      exact ⟨u, hu, rfl⟩
    case h_2 user hl =>
      have hkeep : lookupA k
          (eraseA sid (updateA sid (fun v => { v with inGame := false }) s.lobbyUsers)) =
          some u := by
        rw [lookupA_eraseA_ne _ _ _ hk, lookupA_updateA_ne _ _ _ _ hk, hu]
      split at h
      case h_1 =>
        simp only [Option.some.injEq, Prod.mk.injEq] at h
        rw [← h.1]
        exact ⟨u, hkeep, rfl⟩
      case h_2 gid game hfind =>
        split at h
        case h_1 =>
          simp only [Option.some.injEq, Prod.mk.injEq] at h
          rw [← h.1]
          exact ⟨u, hkeep, rfl⟩
        case h_2 opponent hopp =>
          split at h
          · simp only [Option.some.injEq, Prod.mk.injEq] at h
            rw [← h.1]
            exact ⟨u, hkeep, rfl⟩
          · dsimp only at h
            split at h
            case h_1 => exact absurd h (by simp)
            case h_2 uo huo =>
              simp only [Option.some.injEq, Prod.mk.injEq] at h
              rw [← h.1]
              exact scores_after_setFalse opponent.socketId k _ hkeep
  · intro s s' out sid gid h k u hu
    rw [P5.handle] at h
    split at h
    case h_1 =>
      simp only [Option.some.injEq, Prod.mk.injEq] at h
      rw [← h.1]
      exact ⟨u, hu, rfl⟩
    case h_2 game hg =>
      split at h
      · simp only [Option.some.injEq, Prod.mk.injEq] at h
        rw [← h.1]
        exact scores_after_setFalse sid k s.lobbyUsers hu
      · split at h
        case h_1 =>
          simp only [Option.some.injEq, Prod.mk.injEq] at h
          rw [← h.1]
          exact scores_after_setFalse sid k s.lobbyUsers hu
        case h_2 opponent hopp =>
          dsimp only at h
          split at h
          case h_1 => exact absurd h (by simp)
          case h_2 uo huo =>
            simp only [Option.some.injEq, Prod.mk.injEq] at h
            rw [← h.1]
            rcases scores_after_setFalse sid k s.lobbyUsers hu with ⟨u1, hu1, hs1⟩
            rcases scores_after_setFalse opponent.socketId k _ hu1 with ⟨u2, hu2, hs2⟩
            exact ⟨u2, hu2, hs2.trans hs1⟩
  · intro s s' out sid h k u hk hu
    rw [P5.handle] at h
    split at h
    case h_1 =>
      simp only [Option.some.injEq, Prod.mk.injEq] at h
      rw [← h.1]
      exact ⟨u, hu, rfl⟩
    case h_2 user hl =>
      have hkeep : lookupA k
          (eraseA sid (updateA sid (fun v => { v with inGame := false }) s.lobbyUsers)) =
          some u := by
        rw [lookupA_eraseA_ne _ _ _ hk, lookupA_updateA_ne _ _ _ _ hk, hu]
      split at h
      case h_1 =>
        simp only [Option.some.injEq, Prod.mk.injEq] at h
        rw [← h.1]
        exact ⟨u, hkeep, rfl⟩
      case h_2 gid game hfind =>
        split at h
        case h_1 =>
          simp only [Option.some.injEq, Prod.mk.injEq] at h
          rw [← h.1]
          exact ⟨u, hkeep, rfl⟩
        case h_2 opponent hopp =>
          dsimp only at h
          split at h
          case h_1 => exact absurd h (by simp)
          case h_2 uo huo =>
            simp only [Option.some.injEq, Prod.mk.injEq] at h
            rw [← h.1]
            exact scores_after_setFalse opponent.socketId k _ hkeep
  · intro s s' out sid h
    rw [SJ.handle] at h
    simp only [Option.some.injEq, Prod.mk.injEq] at h
    rw [← h.1]

/-- The part_005 state after `"A"` exits the demo two-human Session. -/
def c8ExitState : P5.ServerState :=
  { lobbyUsers :=
      [("A", ⟨"alice", false, ⟨0, 0, 0⟩⟩), ("B", ⟨"bob", false, ⟨0, 0, 0⟩⟩)],
    ongoingGames := [],
    nextGameId := 1 }

theorem claim_c8_witness :
    ∃ u', lookupA "B" c8ExitState.lobbyUsers = some u' ∧
      u'.score = (⟨0, 0, 0⟩ : P5.Score) :=
  claim_c8.2.2.1 c1WitnessState c8ExitState
    [P5.Emit.updateGameTo "B" { demoGame with winner := .abandoned },
     P5.Emit.lobbyData c8ExitState.lobbyUsers,
     P5.Emit.returnedToLobby "A"]
    "A" 0 rfl "B" ⟨"bob", true, ⟨0, 0, 0⟩⟩ rfl

/-- The lowdb trace in which `"A"` quits the running match. -/
def c8QuitTrace : List SJ.Event :=
  [.login "alice", .login "bob",
   .joinLobby "A" "alice", .joinLobby "B" "bob",
   .acceptChallenge "B" "A", .quitGame "A" "AB0"]

def c8QuitState : SJ.ServerState :=
  { dbUsers := [⟨"alice", 1, 0, 1⟩, ⟨"bob", 1, 1, 0⟩],
    activeUsers := [("A", "alice"), ("B", "bob")],
    activeGames := [],
    clock := 1 }

/-- C8 (counterexample): the lowdb `quitGame` handler — one of the two
abandonment paths the claim cites — increments the quitter's losses and
games-played and the opponent's wins and games-played, so score records are
not left as they were. -/
theorem claim_c8_counterexample :
    SJ.runEvents (c8QuitTrace.take 5) =
      some { dbUsers := [⟨"alice", 0, 0, 0⟩, ⟨"bob", 0, 0, 0⟩],
             activeUsers := [("A", "alice"), ("B", "bob")],
             activeGames := [("AB0", ⟨"A", "B", List.replicate 9 none, "A", none⟩)],
             clock := 1 } ∧
    SJ.runEvents c8QuitTrace = some c8QuitState ∧
    c8QuitState.dbUsers ≠ [⟨"alice", 0, 0, 0⟩, ⟨"bob", 0, 0, 0⟩] :=
  ⟨rfl, rfl, by decide⟩

/-! ## `P4` — the first server in `src/unnamed/part_004`

Only the handlers C9 references are embedded: `joinLobby`, which stores the
entry unconditionally (`lobbyUsers.set(socket.id, { username, inGame: false })`
with no `has` check), and `challengeResponse`, which creates a game for any
accepted response whose two parties are registered (no `inGame` re-check in
this variant).  Lobby values here carry no score record. -/

namespace P4

structure User where
  username : String
  inGame : Bool
deriving DecidableEq, Repr

structure Game where
  board : List (Option Side)
  currentPlayer : Side
  players : List P5.PlayerSlot
  winner : P5.WinState
deriving DecidableEq, Repr

structure ServerState where
  lobbyUsers : List (String × User)
  ongoingGames : List (Nat × Game)
  nextGameId : Nat
deriving DecidableEq, Repr

def initialState : ServerState := ⟨[], [], 0⟩

inductive Event
  | joinLobby (sid : String) (username : String)
  | challengeResponse (sid : String) (fromId : String) (accepted : Bool)
deriving DecidableEq, Repr

inductive Emit
  | lobbyData (users : List (String × User))
  | startGame (target : String) (gameId : Nat) (g : Game)
  | challengeDeclined (target : String) (reason : String)
deriving DecidableEq, Repr

def handle (s : ServerState) : Event → Option (ServerState × List Emit)
  | .joinLobby sid username =>
    -- `lobbyUsers.set(socket.id, { username, inGame: false });` — overwrites
    let lobby1 := setA sid ⟨username, false⟩ s.lobbyUsers
    some ({ s with lobbyUsers := lobby1 }, [.lobbyData lobby1])
  | .challengeResponse sid fromId accepted =>
    match lookupA fromId s.lobbyUsers, lookupA sid s.lobbyUsers with
    | some challenger, some opponent =>
      if accepted then
        let gid := s.nextGameId
        let g : Game :=
          { board := emptyBoard, currentPlayer := .X,
            players := [⟨fromId, .X, challenger.username⟩, ⟨sid, .O, opponent.username⟩],
            winner := .ongoing }
        let lobby1 :=
          updateA sid (fun u => { u with inGame := true })
            (updateA fromId (fun u => { u with inGame := true }) s.lobbyUsers)
        some ({ s with lobbyUsers := lobby1,
                       ongoingGames := s.ongoingGames ++ [(gid, g)],
                       nextGameId := gid + 1 },
              [.startGame fromId gid g, .startGame sid gid g, .lobbyData lobby1])
      else
        some (s, [.challengeDeclined fromId (opponent.username ++ " declined your challenge.")])
    | some _, none => none  -- `${opponent.username}` on undefined in the decline branch
    | none, _ => some (s, [])

def runEvents : List Event → Option ServerState
  | es =>
    es.foldl (fun acc e => acc.bind (fun s => (handle s e).map Prod.fst)) (some initialState)

end P4

/-! ## Claim C9 — idempotent lobby re-join -/

/-- C9 (amended): in part_005 (and part_003, which shares the handler) a
`joinLobby` from an already-registered connection id is a complete no-op —
the state is returned unchanged and nothing is emitted.  In part_004 the
handler overwrites instead (see the counterexample). -/
theorem claim_c9 :
    (∀ (s : P5.ServerState) (sid username : String) (u : P5.User),
      lookupA sid s.lobbyUsers = some u →
      P5.handle s (.joinLobby sid username) = some (s, [])) ∧
    (∀ (s : P5.ServerState) (sid username : String) (u : P5.User),
      lookupA sid s.lobbyUsers = some u →
      P3.handle s (.joinLobby sid username) = some (s, [])) := by
  constructor
  · intro s sid username u hu
    rw [P5.handle]
    simp [hu]
  · intro s sid username u hu
    rw [P3.handle]
    simp [hu]

theorem claim_c9_witness :
    P5.handle c1WitnessState (.joinLobby "A" "someone else") =
      some (c1WitnessState, []) :=
  claim_c9.1 c1WitnessState "A" "someone else" ⟨"alice", true, ⟨0, 0, 0⟩⟩ rfl

def c9Trace : List P4.Event :=
  [.joinLobby "A" "alice", .joinLobby "B" "bob",
   .challengeResponse "B" "A" true, .joinLobby "A" "mallory"]

def c9State : P4.ServerState :=
  { lobbyUsers := [("A", ⟨"mallory", false⟩), ("B", ⟨"bob", true⟩)],
    ongoingGames :=
      [(0, { board := emptyBoard, currentPlayer := .X,
             players := [⟨"A", .X, "alice"⟩, ⟨"B", .O, "bob"⟩],
             winner := .ongoing })],
    nextGameId := 1 }

/-- C9 (counterexample): in part_004 a second `joinLobby` from a registered
connection id is not a no-op: it replaces the display name and resets the
in-session flag to false while the participant is still bound to a game. -/
theorem claim_c9_counterexample :
    P4.runEvents (c9Trace.take 3) =
      some { lobbyUsers := [("A", ⟨"alice", true⟩), ("B", ⟨"bob", true⟩)],
             ongoingGames := c9State.ongoingGames,
             nextGameId := 1 } ∧
    P4.runEvents c9Trace = some c9State ∧
    lookupA "A" c9State.lobbyUsers = some ⟨"mallory", false⟩ ∧
    (⟨"mallory", false⟩ : P4.User) ≠ ⟨"alice", true⟩ :=
  ⟨rfl, rfl, rfl, by decide⟩

/-! ## Claim C10 — the cell content is the client-supplied symbol -/

theorem getD_set_self {l : List (Option String)} {i : Nat} {v : Option String}
    (h : i < l.length) : (l.set i v).getD i none = v := by
  simp [List.getD_eq_getElem?_getD, List.getElem?_set_self', h]

def c10State : SJ.ServerState :=
  { dbUsers := [], activeUsers := [],
    activeGames := [("AB0", ⟨"A", "B", List.replicate 9 none, "A", none⟩)],
    clock := 1 }

def c10Game : SJ.Game :=
  ⟨"A", "B", [some "O", none, none, none, none, none, none, none, none], "B", none⟩

def c10After : SJ.ServerState :=
  { dbUsers := [], activeUsers := [],
    activeGames := [("AB0", c10Game)],
    clock := 1 }

/-- C10: an accepted lowdb `makeMove` writes the client-supplied `symbol`
payload into the chosen cell, with no check against the caller's assigned
side — in general (every accepted move stores exactly the payload string),
and concretely: the participant who was dealt `"X"` at `startGame` places
`"O"`. -/
theorem claim_c10 :
    (∀ (s s' : SJ.ServerState) (out : List SJ.Emit) (sid gameId symbol : String)
        (index : Nat) (g : SJ.Game),
      SJ.handle s (.makeMove sid gameId index symbol) = some (s', out) →
      lookupA gameId s.activeGames = some g →
      g.currentTurn = sid → SJ.cellIsNull g.board index = true →
      ∃ g', lookupA gameId s'.activeGames = some g' ∧
        g'.board.getD index none = some symbol) ∧
    (SJ.handle SJ.initialState (.acceptChallenge "B" "A") =
      some (c10State,
        [.startGame "A" "AB0" true "X", .startGame "B" "AB0" false "O",
         .lobbyUpdate []]) ∧
     SJ.handle c10State (.makeMove "A" "AB0" 0 "O") =
      some (c10After,
        [.boardUpdate "A" c10Game.board false false none,
         .boardUpdate "B" c10Game.board true false none]) ∧
     c10Game.board.getD 0 none = some "O") := by
  constructor
  · intro s s' out sid gameId symbol index g hstep hg hturn hcell
    have hidx : index < g.board.length := by
      have hc := hcell
      simp only [SJ.cellIsNull, Bool.and_eq_true, decide_eq_true_eq] at hc
      exact hc.1
    rw [SJ.handle] at hstep
    simp only [hg] at hstep
    rw [if_neg (by simp [hturn]), if_pos hcell] at hstep
    have hboard : (g.board.set index (some symbol)).getD index none = some symbol :=
      getD_set_self hidx
    split at hstep
    case h_1 ws hw =>
      split at hstep
      case h_1 wU lU hwU hlU =>
        simp only [Option.some.injEq, Prod.mk.injEq] at hstep
        rcases hstep with ⟨hs, _⟩
        rw [← hs]
        refine ⟨{ g with board := g.board.set index (some symbol), currentTurn := (if g.currentTurn = g.player1 then g.player2 else g.player1), winner := SJ.checkWinner (g.board.set index (some symbol)) }, ?_, hboard⟩
        rw [lookupA_updateA_self, hg]
        rfl
      case h_2 => exact absurd hstep (by simp)
    case h_2 hw =>
      split at hstep
      · split at hstep
        case h_1 u1 u2 hu1 hu2 =>
          simp only [Option.some.injEq, Prod.mk.injEq] at hstep
          rcases hstep with ⟨hs, _⟩
          rw [← hs]
          refine ⟨{ g with board := g.board.set index (some symbol), currentTurn := (if g.currentTurn = g.player1 then g.player2 else g.player1), winner := SJ.checkWinner (g.board.set index (some symbol)) }, ?_, hboard⟩
          rw [lookupA_updateA_self, hg]
          rfl
        case h_2 => exact absurd hstep (by simp)
      · simp only [Option.some.injEq, Prod.mk.injEq] at hstep
        rcases hstep with ⟨hs, _⟩
        rw [← hs]
        refine ⟨{ g with board := g.board.set index (some symbol), currentTurn := (if g.currentTurn = g.player1 then g.player2 else g.player1), winner := SJ.checkWinner (g.board.set index (some symbol)) }, ?_, hboard⟩
        rw [lookupA_updateA_self, hg]
        rfl
  · exact ⟨rfl, rfl, rfl⟩

theorem claim_c10_witness :
    ∃ g', lookupA "AB0" c10After.activeGames = some g' ∧
      g'.board.getD 0 none = some "O" :=
  claim_c10.1 c10State c10After
    [.boardUpdate "A" c10Game.board false false none,
     .boardUpdate "B" c10Game.board true false none]
    "A" "AB0" "O" 0 ⟨"A", "B", List.replicate 9 none, "A", none⟩
    rfl rfl rfl rfl
